import Mathlib

/-!
Verification development for the `energy_metrics` Home Assistant custom
component (files `coordinator.py` and `api.py`).

The embedding models:
  * Python `datetime` objects as produced by `homeassistant.util.dt.parse_datetime`
    (wall-clock fields plus an optional fixed UTC offset in minutes; `none` models
    a naive datetime),
  * `datetime.isoformat()` rendering to a `String`,
  * Python string comparison (lexicographic by code point),
  * the persisted dataset (`{"metrics": {key: record}, "last_updated": ...}`) as an
    insertion-ordered association list, mirroring a Python dict,
  * `EnergyMetricsCoordinator.async_add_metrics`, `async_get_latest_metrics`,
    `async_get_metrics_range` and `_import_metrics_to_statistics`,
  * `EnergyMetricsView._validate_metric` and the POST handler.

The Persistence Adapter (`homeassistant.helpers.storage.Store`) is an external
collaborator; per the spec it is modelled as durable value storage:
`load()` returns the durably saved dataset, `save(d)` either durably stores `d`
or fails leaving the durable dataset unchanged.  Whether a given save call
succeeds is a Boolean parameter of the model.  `dt_util.utcnow()` is modelled by
an explicit `now` parameter threaded into each call.
-/

/-! ### Python string comparison (code-point lexicographic) -/

/-- Strict lexicographic comparison of char lists by Unicode code point,
modelling Python `str.__lt__`. -/
def lexLtB : List Char → List Char → Bool
  | [], [] => false
  | [], _ :: _ => true
  | _ :: _, [] => false
  | a :: as, b :: bs =>
    if a.toNat < b.toNat then true
    else if b.toNat < a.toNat then false
    else lexLtB as bs

/-- Non-strict lexicographic comparison of char lists by code point,
modelling Python `str.__le__`. -/
def lexLeB : List Char → List Char → Bool
  | [], _ => true
  | _ :: _, [] => false
  | a :: as, b :: bs =>
    if a.toNat < b.toNat then true
    else if b.toNat < a.toNat then false
    else lexLeB as bs

theorem lexLtB_irrefl (l : List Char) : lexLtB l l = false := by
  induction l with
  | nil => rfl
  | cons a as ih => simp [lexLtB, ih]

theorem lexLeB_refl (l : List Char) : lexLeB l l = true := by
  induction l with
  | nil => rfl
  | cons a as ih => simp [lexLeB, ih]

theorem lexLeB_eq_not_lexLtB (a b : List Char) : lexLeB a b = !lexLtB b a := by
  induction a generalizing b with
  | nil => cases b <;> rfl
  | cons x xs ih =>
    cases b with
    | nil => rfl
    | cons y ys =>
      simp only [lexLeB, lexLtB]
      rcases Nat.lt_trichotomy x.toNat y.toNat with h | h | h
      · simp [h, Nat.lt_asymm h]
      · simp [h, Nat.lt_irrefl, ih]
      · simp [h, Nat.lt_asymm h]

theorem lexLeB_total (a b : List Char) : lexLeB a b = true ∨ lexLeB b a = true := by
  induction a generalizing b with
  | nil => left; rfl
  | cons x xs ih =>
    cases b with
    | nil => right; rfl
    | cons y ys =>
      simp only [lexLeB]
      rcases Nat.lt_trichotomy x.toNat y.toNat with h | h | h
      · left; simp [h]
      · simpa [h, Nat.lt_irrefl] using ih ys
      · right; simp [h, Nat.lt_asymm h]

theorem lexLeB_trans {a b c : List Char} (h1 : lexLeB a b = true)
    (h2 : lexLeB b c = true) : lexLeB a c = true := by
  induction a generalizing b c with
  | nil => rfl
  | cons x xs ih =>
    cases b with
    | nil => simp [lexLeB] at h1
    | cons y ys =>
      cases c with
      | nil => simp [lexLeB] at h2
      | cons z zs =>
        simp only [lexLeB] at h1 h2 ⊢
        by_cases hxy : x.toNat < y.toNat
        · by_cases hyz : y.toNat < z.toNat
          · simp [Nat.lt_trans hxy hyz]
          · by_cases hzy : z.toNat < y.toNat
            · simp [hyz, hzy] at h2
            · have : y.toNat = z.toNat := Nat.le_antisymm (Nat.not_lt.mp hzy) (Nat.not_lt.mp hyz)
              simp [this ▸ hxy]
        · by_cases hyx : y.toNat < x.toNat
          · simp [hxy, hyx] at h1
          · have hxyeq : x.toNat = y.toNat := Nat.le_antisymm (Nat.not_lt.mp hyx) (Nat.not_lt.mp hxy)
            simp only [hxy, if_neg, hyx] at h1
            by_cases hyz : y.toNat < z.toNat
            · simp [hxyeq ▸ hyz]
            · by_cases hzy : z.toNat < y.toNat
              · simp [hyz, hzy] at h2
              · simp only [hyz, hzy, if_neg] at h2
                simp only [if_neg (hxyeq ▸ hyz), if_neg (hxyeq ▸ hzy)]
                simp [hxy, hyx, ih h1 h2]

/-- Python `s1 < s2` on strings. -/
def pyStrLt (s t : String) : Bool := lexLtB s.data t.data

/-- Python `s1 <= s2` on strings. -/
def pyStrLe (s t : String) : Bool := lexLeB s.data t.data

/-! ### Datetime model -/

/-- Model of a Python `datetime` as handled by `dt_util.parse_datetime` /
`datetime.isoformat()`: wall-clock fields plus `offset`, the fixed UTC offset in
minutes (`none` models a naive datetime). -/
structure DT where
  year : Nat
  month : Nat
  day : Nat
  hour : Nat
  minute : Nat
  second : Nat
  usec : Nat
  offset : Option Int
deriving DecidableEq

/-- Character for a decimal digit (callers pass values below 10). -/
def digitChar (n : Nat) : Char := Char.ofNat (48 + n)

/-- Two-digit zero-padded rendering. -/
def pad2 (n : Nat) : List Char := [digitChar (n / 10), digitChar (n % 10)]

/-- Four-digit zero-padded rendering. -/
def pad4 (n : Nat) : List Char :=
  [digitChar (n / 1000), digitChar (n / 100 % 10), digitChar (n / 10 % 10), digitChar (n % 10)]

/-- Six-digit zero-padded rendering (microseconds). -/
def pad6 (n : Nat) : List Char :=
  [digitChar (n / 100000), digitChar (n / 10000 % 10), digitChar (n / 1000 % 10),
   digitChar (n / 100 % 10), digitChar (n / 10 % 10), digitChar (n % 10)]

/-- Rendering of the UTC offset suffix of `datetime.isoformat()`:
empty for a naive datetime, otherwise sign followed by `HH:MM`. -/
def offsetChars : Option Int → List Char
  | none => []
  | some o =>
    (if o < 0 then '-' else '+') :: (pad2 (o.natAbs / 60) ++ ':' :: pad2 (o.natAbs % 60))

/-- `datetime.isoformat()` as a char list: `YYYY-MM-DDTHH:MM:SS`, the
microsecond part `.ffffff` only when nonzero, then the offset suffix. -/
def DT.isoChars (d : DT) : List Char :=
  pad4 d.year ++ '-' :: (pad2 d.month ++ '-' :: (pad2 d.day ++ 'T' ::
    (pad2 d.hour ++ ':' :: (pad2 d.minute ++ ':' :: (pad2 d.second ++
      ((if d.usec = 0 then [] else '.' :: pad6 d.usec) ++ offsetChars d.offset))))))

/-- `datetime.isoformat()`. -/
def DT.isoformat (d : DT) : String := String.mk d.isoChars

/-- Days from civil epoch 1970-01-01 (Howard Hinnant's `days_from_civil`,
with truncating integer division as in the C source). -/
def daysFromCivil (y m d : Int) : Int :=
  let y2 : Int := if m ≤ 2 then y - 1 else y
  let era : Int := (if 0 ≤ y2 then y2 else y2 - 399).tdiv 400
  let yoe : Int := y2 - era * 400
  let mp : Int := if 2 < m then m - 3 else m + 9
  let doy : Int := (153 * mp + 2).tdiv 5 + d - 1
  let doe : Int := yoe * 365 + yoe.tdiv 4 - yoe.tdiv 100 + doy
  era * 146097 + doe - 719468

/-- Wall-clock microseconds since the civil epoch, ignoring the offset. -/
def DT.wallMicro (d : DT) : Int :=
  daysFromCivil d.year d.month d.day * 86400000000
    + (d.hour * 3600 + d.minute * 60 + d.second) * 1000000 + d.usec

/-- UTC instant in microseconds since the epoch (aware datetimes; for a naive
datetime the offset is taken as 0, but `pyCmp` never mixes the two). -/
def DT.instantMicro (d : DT) : Int :=
  d.wallMicro - (d.offset.getD 0) * 60000000

/-- Lexicographic comparison of the wall-clock field tuple, mirroring
CPython `datetime._cmp` on the base fields. -/
def fieldCmp (a b : DT) : Ordering :=
  if a.year < b.year then .lt else if b.year < a.year then .gt
  else if a.month < b.month then .lt else if b.month < a.month then .gt
  else if a.day < b.day then .lt else if b.day < a.day then .gt
  else if a.hour < b.hour then .lt else if b.hour < a.hour then .gt
  else if a.minute < b.minute then .lt else if b.minute < a.minute then .gt
  else if a.second < b.second then .lt else if b.second < a.second then .gt
  else if a.usec < b.usec then .lt else if b.usec < a.usec then .gt
  else .eq

/-- Python `datetime` comparison: naive with naive and equal-offset aware
datetimes compare by wall-clock fields; different-offset aware datetimes
compare by UTC instant; mixing naive and aware raises `TypeError` (`none`). -/
def pyCmp (a b : DT) : Option Ordering :=
  match a.offset, b.offset with
  | none, none => some (fieldCmp a b)
  | some oa, some ob =>
    if oa = ob then some (fieldCmp a b) else some (compare a.instantMicro b.instantMicro)
  | _, _ => none

/-- Python `a <= b` on datetimes (`none` models `TypeError`). -/
def pyLeB (a b : DT) : Option Bool :=
  (pyCmp a b).map fun o => match o with | .gt => false | _ => true

/-- `timestamp.replace(minute=0, second=0, microsecond=0)`: truncation to the
top of the hour (`coordinator.py` line 268). -/
def truncHour (d : DT) : DT := { d with minute := 0, second := 0, usec := 0 }

/-! ### `dt_util.parse_datetime` -/

/-- Value of a decimal digit character. -/
def readDigit (c : Char) : Option Nat :=
  if 48 ≤ c.toNat ∧ c.toNat ≤ 57 then some (c.toNat - 48) else none

/-- Read exactly two digits. -/
def read2 : List Char → Option (Nat × List Char)
  | a :: b :: rest => do
    let da ← readDigit a
    let db ← readDigit b
    pure (10 * da + db, rest)
  | _ => none

/-- Read exactly four digits. -/
def read4 : List Char → Option (Nat × List Char)
  | a :: b :: c :: d :: rest => do
    let da ← readDigit a
    let db ← readDigit b
    let dc ← readDigit c
    let dd ← readDigit d
    pure (1000 * da + 100 * db + 10 * dc + dd, rest)
  | _ => none

/-- Consume one expected character. -/
def expectChar (c : Char) : List Char → Option (List Char)
  | x :: rest => if x = c then some rest else none
  | [] => none

/-- Greedily consume leading digits. -/
def takeDigits : List Char → (List Nat × List Char)
  | [] => ([], [])
  | c :: rest =>
    match readDigit c with
    | some d =>
      let p := takeDigits rest
      (d :: p.1, p.2)
    | none => ([], c :: rest)

/-- Microseconds from a fraction digit list: padded/truncated to 6 digits. -/
def usecOfDigits (ds : List Nat) : Nat :=
  ((ds ++ [0, 0, 0, 0, 0, 0]).take 6).foldl (fun acc d => 10 * acc + d) 0

/-- Parse the timezone suffix: nothing (naive), `Z`, or `+HH:MM` / `-HH:MM` /
`+HHMM` / `+HH`; the result is the offset in minutes. -/
def parseOffset : List Char → Option (Option Int)
  | [] => some none
  | ['Z'] => some (some 0)
  | c :: rest =>
    if c = '+' ∨ c = '-' then do
      let (h, r1) ← read2 rest
      let (m, r2) ← match r1 with
        | [] => some (0, ([] : List Char))
        | ':' :: r => read2 r
        | r => read2 r
      if r2 = [] ∧ h ≤ 23 ∧ m ≤ 59 then
        let tot : Int := h * 60 + m
        some (some (if c = '-' then -tot else tot))
      else none
    else none

/-- `True` for leap years (Gregorian). -/
def isLeap (y : Nat) : Bool := (y % 4 = 0 && y % 100 != 0) || y % 400 = 0

/-- Days in a month. -/
def daysInMonth (y m : Nat) : Nat :=
  if m = 2 then (if isLeap y then 29 else 28)
  else if m = 4 ∨ m = 6 ∨ m = 9 ∨ m = 11 then 30
  else 31

/-- Field validity enforced by the datetime constructor (year 1–9999 and
in-range month/day/hour/minute/second). -/
def DT.validFields (d : DT) : Bool :=
  1 ≤ d.year && d.year ≤ 9999 && 1 ≤ d.month && d.month ≤ 12 && 1 ≤ d.day &&
    d.day ≤ daysInMonth d.year d.month && d.hour ≤ 23 && d.minute ≤ 59 &&
    d.second ≤ 59 && d.usec ≤ 999999

/-- Final constructor step: field validation (`datetime(...)` raises
`ValueError` on out-of-range fields, which `parse_datetime` turns into `None`). -/
def mkDT (y mo d h mi s us : Nat) (off : Option Int) : Option DT :=
  let dt : DT := ⟨y, mo, d, h, mi, s, us, off⟩
  if dt.validFields then some dt else none

/-- Parser core over the char list: `YYYY-MM-DD[T ]HH:MM[:SS[.ffffff]][offset]`,
the grammar accepted by `dt_util.parse_datetime` for full timestamps.  (The
real function also accepts some further shapes such as date-only strings; the
model covers the shapes the component produces and the claims exercise, and
rejects the rest.) -/
def parseDT (cs : List Char) : Option DT := do
  let (y, r1) ← read4 cs
  let r2 ← expectChar '-' r1
  let (mo, r3) ← read2 r2
  let r4 ← expectChar '-' r3
  let (d, r5) ← read2 r4
  let r6 ← match r5 with
    | 'T' :: r => some r
    | ' ' :: r => some r
    | _ => none
  let (h, r7) ← read2 r6
  let r8 ← expectChar ':' r7
  let (mi, r9) ← read2 r8
  let (s, us, r10) ← match r9 with
    | ':' :: r => do
      let (s2, ra) ← read2 r
      match ra with
      | '.' :: rb =>
        let p := takeDigits rb
        if p.1 = [] then none else some (s2, usecOfDigits p.1, p.2)
      | _ => some (s2, 0, ra)
    | r => some (0, 0, r)
  let off ← parseOffset r10
  mkDT y mo d h mi s us off

/-- `dt_util.parse_datetime`: returns `none` when the string cannot be parsed. -/
def parse_datetime (s : String) : Option DT := parseDT s.data


/-! ### Records, datasets and the world -/

/-- A stored metric record (`new_metric_data` in `coordinator.py` lines 107-113):
always exactly these five keys.  Numeric values are modelled as rationals (the
claims only compare and forward them). -/
structure MetricRecord where
  timestamp : String
  meter_value : Option ℚ
  average_value : Option ℚ
  temperature : Option ℚ
  created_at : String
deriving DecidableEq

/-- The persisted dataset blob `{"metrics": ..., "last_updated": ...}`.
`metrics` models a Python dict as an insertion-ordered association list. -/
structure Dataset where
  metrics : List (String × MetricRecord)
  last_updated : Option String
deriving DecidableEq

/-- The empty dataset (`stored_data = {}` with `.get("metrics", {})`). -/
def emptyDataset : Dataset := ⟨[], none⟩

/-- Python `dict.get(key)` on the association list (first matching key). -/
def dictGet {α : Type} (m : List (String × α)) (k : String) : Option α :=
  (m.find? fun p => p.1 == k).map fun p => p.2

/-- Python `dict[key] = value`: replaces in place, keeping the key's position;
a new key is appended at the end. -/
def dictSet {α : Type} : List (String × α) → String → α → List (String × α)
  | [], k, v => [(k, v)]
  | (k0, v0) :: rest, k, v =>
    if k0 == k then (k, v) :: rest else (k0, v0) :: dictSet rest k v

/-- The world visible to the coordinator: the Persistence Adapter's durable
blob (`none` when nothing was ever saved) and the coordinator's in-memory
`self._data` cache. -/
structure World where
  durable : Option Dataset
  cache : Dataset
deriving DecidableEq

/-- Fresh world: no blob saved, `self._data = {}`. -/
def emptyWorld : World := ⟨none, emptyDataset⟩

/-! ### Coordinator inputs -/

/-- A timestamp value found in an incoming metric dict. -/
inductive TsIn where
  /-- A string value. -/
  | str (s : String)
  /-- An already-structured datetime value. -/
  | dt (d : DT)
  /-- A truthy value that is neither a string nor a datetime. -/
  | other
deriving DecidableEq

/-- An incoming metric as `async_add_metrics` receives it:
`timestamp` is `none` when the key is absent or its value is falsy `None`;
data fields are `none` when absent or `None`. -/
structure CoordMetric where
  timestamp : Option TsIn
  meter_value : Option ℚ
  average_value : Option ℚ
  temperature : Option ℚ
deriving DecidableEq

/-- Per-item outcome mark of the merge loop (`is_new` / `is_different` /
unchanged-skip / any per-item error path). -/
inductive Mark where
  /-- Inserted as a new key. -/
  | isNew
  /-- Key present, record differed, replaced. -/
  | isChanged
  /-- Key present, record equal, skipped. -/
  | isUnchanged
  /-- Missing/unparsable/invalid timestamp: `error_count` incremented, item skipped. -/
  | isError
deriving DecidableEq

/-- State threaded through the `for` loop of `async_add_metrics`
(lines 69-132): the metrics dict plus `updated`, `processed_count`,
`error_count`, the per-item marks and the count of all-fields-None warnings. -/
structure LoopState where
  metrics : List (String × MetricRecord)
  updated : Bool
  processed : Nat
  errors : Nat
  marks : List Mark
  noDataWarnings : Nat
deriving DecidableEq

/-- Body of the merge loop after a timestamp `t` has been obtained
(lines 94-127): build `new_metric_data` with `created_at = now`, then insert /
replace / skip according to `is_new` / `is_different`.  Note the comparison at
line 117 is whole-dict inequality, `created_at` included. -/
def stepCore (now : DT) (st : LoopState) (t : DT) (m : CoordMetric) : LoopState :=
  let key := t.isoformat
  let newRec : MetricRecord :=
    ⟨key, m.meter_value, m.average_value, m.temperature, now.isoformat⟩
  let nw := st.noDataWarnings +
    (if m.meter_value = none ∧ m.average_value = none ∧ m.temperature = none then 1 else 0)
  match dictGet st.metrics key with
  | none =>
    ⟨dictSet st.metrics key newRec, true, st.processed + 1, st.errors,
      st.marks ++ [.isNew], nw⟩
  | some old =>
    if old = newRec then
      ⟨st.metrics, st.updated, st.processed + 1, st.errors, st.marks ++ [.isUnchanged], nw⟩
    else
      ⟨dictSet st.metrics key newRec, true, st.processed + 1, st.errors,
        st.marks ++ [.isChanged], nw⟩

/-- One iteration of the merge loop (lines 73-132).  A falsy timestamp
(absent, `None` or the empty string) hits the line-76 guard; an unparsable
string hits lines 84-92; a truthy non-string non-datetime raises on
`.isoformat()` and is caught by the per-item handler at line 129. -/
def stepMetric (now : DT) (st : LoopState) (m : CoordMetric) : LoopState :=
  match m.timestamp with
  | none => { st with errors := st.errors + 1, marks := st.marks ++ [.isError] }
  | some (.str s) =>
    if s = "" then { st with errors := st.errors + 1, marks := st.marks ++ [.isError] }
    else
      match parse_datetime s with
      | none => { st with errors := st.errors + 1, marks := st.marks ++ [.isError] }
      | some t => stepCore now st t m
  | some (.dt t) => stepCore now st t m
  | some .other => { st with errors := st.errors + 1, marks := st.marks ++ [.isError] }

/-! ### Statistics export (`_import_metrics_to_statistics`) -/

/-- Cumulative-energy statistics point `{"start", "sum", "state"}`. -/
structure EnergyStat where
  start : DT
  sum : ℚ
  state : ℚ
deriving DecidableEq

/-- Temperature statistics point `{"start", "mean", "min", "max"}`
(`minv`/`maxv` model the `"min"`/`"max"` keys). -/
structure TempStat where
  start : DT
  mean : ℚ
  minv : ℚ
  maxv : ℚ
deriving DecidableEq

/-- Sort key computed by `parse_timestamp_for_sorting` (lines 248-255):
a parsed datetime, Python `None` for an unparsable string, or `datetime.min`
for a non-string non-datetime value. -/
inductive SortKey where
  /-- `datetime.min`, a naive datetime. -/
  | dtMin
  /-- `None` (string failed to parse): unorderable. -/
  | noneKey
  /-- A parsed or passed-through datetime. -/
  | dt (d : DT)
deriving DecidableEq

/-- `datetime.min = datetime(1, 1, 1)` (naive). -/
def dtMinDT : DT := ⟨1, 1, 1, 0, 0, 0, 0, none⟩

/-- Sort key of one metric. -/
def sortKeyOf (m : CoordMetric) : SortKey :=
  match m.timestamp with
  | some (.str s) =>
    match parse_datetime s with
    | some d => .dt d
    | none => .noneKey
  | some (.dt d) => .dt d
  | _ => .dtMin

/-- Comparison of sort keys; `none` models the `TypeError` Python raises when
comparing `None` or mixing naive and aware datetimes. -/
def cmpSortKey : SortKey → SortKey → Option Ordering
  | .noneKey, _ => none
  | _, .noneKey => none
  | .dtMin, .dtMin => some .eq
  | .dtMin, .dt d => pyCmp dtMinDT d
  | .dt d, .dtMin => pyCmp d dtMinDT
  | .dt a, .dt b => pyCmp a b

/-- All sort keys pairwise comparable (a conservative model of `sorted()`
succeeding: Python's Timsort may skip some comparisons, but every list
appearing in the claims is fully comparable). -/
def allComparable : List SortKey → Bool
  | [] => true
  | k :: ks => (ks.all fun k2 => (cmpSortKey k k2).isSome) && allComparable ks

/-- Non-strict order used to sort `(sortKey, metric)` pairs (arbitrary on
incomparable keys, which `importStats` has already excluded). -/
def keyedLe (a b : SortKey × CoordMetric) : Prop :=
  (cmpSortKey a.1 b.1 ≠ some .gt) = True

instance : DecidableRel keyedLe := fun a b => by
  unfold keyedLe; infer_instance

/-- The statistics point the export loop derives from one metric, energy side
(lines 259-278): skip when the timestamp is absent or unparsable, truncate to
the hour, emit `{start, sum, state}` when `meter_value` is present. -/
def energyStatOf (m : CoordMetric) : Option EnergyStat :=
  match m.timestamp with
  | some (.str s) =>
    match parse_datetime s with
    | some d => m.meter_value.map fun q => ⟨truncHour d, q, q⟩
    | none => none
  | some (.dt d) => m.meter_value.map fun q => ⟨truncHour d, q, q⟩
  | _ => none

/-- Temperature side of the export loop (lines 280-289). -/
def tempStatOf (m : CoordMetric) : Option TempStat :=
  match m.timestamp with
  | some (.str s) =>
    match parse_datetime s with
    | some d => m.temperature.map fun q => ⟨truncHour d, q, q, q⟩
    | none => none
  | some (.dt d) => m.temperature.map fun q => ⟨truncHour d, q, q, q⟩
  | _ => none

/-- The per-item body of the export loop.  A truthy non-string non-datetime
timestamp raises `AttributeError` on `.replace` (`none` aborts the whole
export, caught at line 321); absent or unparsable timestamps are skipped. -/
def statsLoop : List CoordMetric → Option (List EnergyStat × List TempStat)
  | [] => some ([], [])
  | m :: rest =>
    match m.timestamp with
    | some .other => none
    | _ => do
      let (es, ts) ← statsLoop rest
      pure ((energyStatOf m).toList ++ es, (tempStatOf m).toList ++ ts)

/-- `_import_metrics_to_statistics` (lines 240-322): sort the full batch by
parsed timestamp, then collect energy and temperature points.  Returns `none`
when the attempt fails internally (unorderable sort keys or a bad timestamp
value); such failures are caught and logged, never propagated. -/
def importStats (items : List CoordMetric) : Option (List EnergyStat × List TempStat) :=
  let keyed := items.map fun m => (sortKeyOf m, m)
  if allComparable (keyed.map fun p => p.1) then
    statsLoop ((List.insertionSort keyedLe keyed).map fun p => p.2)
  else none

/-! ### `async_add_metrics` -/

/-- Result of one `async_add_metrics` call, including the observable
interactions: whether `store.async_save` was called, whether the statistics
export step ran (it runs at most once, after a successful save), and the
payload it produced. -/
structure MergeResult where
  ok : Bool
  world : World
  saveCalled : Bool
  exportAttempted : Bool
  exported : Option (List EnergyStat × List TempStat)
  processed : Nat
  errorCount : Nat
  marks : List Mark
  noDataWarnings : Nat
deriving DecidableEq

/-- `EnergyMetricsCoordinator.async_add_metrics` (lines 54-165).
`saveOk` tells whether the adapter's save succeeds; `now` models
`dt_util.utcnow()`.  Empty input returns `False` at once (lines 56-58).
The dataset is re-loaded from the adapter, merged item by item, and saved only
when something was new or changed; on save failure the call returns `False`
and neither the durable blob nor `self._data` has been touched. -/
def async_add_metrics (w : World) (saveOk : Bool) (now : DT)
    (metrics_data : List CoordMetric) : MergeResult :=
  if metrics_data.isEmpty then ⟨false, w, false, false, none, 0, 0, [], 0⟩
  else
    let stored := w.durable.getD emptyDataset
    let st := metrics_data.foldl (stepMetric now)
      ⟨stored.metrics, false, 0, 0, [], 0⟩
    if st.updated then
      if saveOk then
        let newDs : Dataset := ⟨st.metrics, some now.isoformat⟩
        ⟨decide (0 < st.processed), ⟨some newDs, newDs⟩, true, true,
          importStats metrics_data, st.processed, st.errors, st.marks, st.noDataWarnings⟩
      else
        ⟨false, w, true, false, none, st.processed, st.errors, st.marks, st.noDataWarnings⟩
    else
      ⟨decide (0 < st.processed), w, false, false, none,
        st.processed, st.errors, st.marks, st.noDataWarnings⟩

/-! ### Queries -/

/-- Fold computing Python `max(keys)` (first maximum wins, matching `max`). -/
def maxKeyAux (k : String) (ks : List String) : String :=
  ks.foldl (fun acc k2 => if pyStrLt acc k2 then k2 else acc) k

/-- `EnergyMetricsCoordinator.async_get_latest_metrics` (lines 167-190):
re-load from the adapter, return the record at the lexicographically greatest
key, or `None` when the dataset is empty. -/
def async_get_latest_metrics (w : World) : Option MetricRecord :=
  let metrics := (w.durable.getD emptyDataset).metrics
  match metrics with
  | [] => none
  | (k, _) :: rest => dictGet metrics (maxKeyAux k (rest.map fun p => p.1))

/-- One pass of the range filter (lines 214-222): re-parse each stored key.
`parse_datetime` returns `None` (it does not raise) on an unparsable key, so
the line-217 guard `if metric_time and ...` skips such a record silently;
`parse_errors` is incremented only when an exception escapes the body — in
practice the chained comparison's `TypeError` on mixing naive and aware
datetimes (lines 219-222). -/
def rangeScan (a b : DT) : List (String × MetricRecord) → (List MetricRecord × Nat)
  | [] => ([], 0)
  | p :: rest =>
    let acc := rangeScan a b rest
    match parse_datetime p.1 with
    | none => acc
    | some t =>
      match pyLeB a t with
      | none => (acc.1, acc.2 + 1)
      | some false => acc
      | some true =>
        match pyLeB t b with
        | none => (acc.1, acc.2 + 1)
        | some false => acc
        | some true => (p.2 :: acc.1, acc.2)

/-- Sort order of the final `filtered_metrics.sort(key=lambda x: x["timestamp"])`
(line 229): by the record's timestamp string, Python string comparison. -/
def recLe (x y : MetricRecord) : Prop := lexLeB x.timestamp.data y.timestamp.data = true

instance : DecidableRel recLe := fun x y => by
  unfold recLe; infer_instance

instance : IsTotal MetricRecord recLe :=
  ⟨fun x y => lexLeB_total x.timestamp.data y.timestamp.data⟩

instance : IsTrans MetricRecord recLe :=
  ⟨fun _ _ _ h1 h2 => lexLeB_trans h1 h2⟩

/-- `EnergyMetricsCoordinator.async_get_metrics_range` (lines 192-238).
Returns the in-range records (second component: the parse-warning count).
`none` models the uncaught `TypeError` when the line-196 comparison of
`start_time` and `end_time` itself mixes naive and aware datetimes; an
inverted range returns an empty result. -/
def async_get_metrics_range (a b : DT) (w : World) :
    Option (List MetricRecord × Nat) :=
  match pyCmp a b with
  | none => none
  | some .gt => some ([], 0)
  | _ =>
    let stored := w.durable.getD emptyDataset
    let scanned := rangeScan a b stored.metrics
    some (List.insertionSort recLe scanned.1, scanned.2)

/-! ### HTTP validation layer (`api.py`) -/

/-- A data-field value found in an incoming JSON metric: a number (or anything
else `float()` coerces, carried as its value) or a non-coercible value. -/
inductive FieldVal where
  /-- Coercible to `float`, with the coerced value. -/
  | num (q : ℚ)
  /-- Present but not coercible to `float`. -/
  | nonNum
deriving DecidableEq

/-- An incoming metric object at the API boundary.  `timestamp = none` models
the key being absent from the dict (`"timestamp" not in metric`); for the data
fields, `none` models absent-or-`None` (the code treats the two alike). -/
structure RawApiMetric where
  timestamp : Option TsIn
  meter_value : Option FieldVal
  average_value : Option FieldVal
  temperature : Option FieldVal
deriving DecidableEq

/-- One element of the incoming `metrics` array: a JSON object or not. -/
inductive RawItem where
  /-- A JSON object. -/
  | obj (m : RawApiMetric)
  /-- Anything else (`not isinstance(metric, dict)`). -/
  | notDict
deriving DecidableEq

/-- A metric that passed `_validate_metric`: timestamp parsed to a datetime,
data fields coerced to floats. -/
structure ValidMetric where
  timestamp : DT
  meter_value : Option ℚ
  average_value : Option ℚ
  temperature : Option ℚ
deriving DecidableEq

/-- Coercion outcome of one optional data field. -/
def coerceField : Option FieldVal → Option (Option ℚ)
  | none => some none
  | some (.num q) => some (some q)
  | some .nonNum => none

/-- The numeric-field sweep of `_validate_metric` (lines 300-307), in source
order; the error names the first non-coercible field.  (The source wraps the
field name in single quotes inside the message.) -/
def validateNumericFields (m : RawApiMetric) (d : DT) : Except String ValidMetric :=
  match coerceField m.meter_value with
  | none => .error "Field meter_value must be numeric"
  | some mv =>
    match coerceField m.average_value with
    | none => .error "Field average_value must be numeric"
    | some av =>
      match coerceField m.temperature with
      | none => .error "Field temperature must be numeric"
      | some tv =>
        if mv = none ∧ av = none ∧ tv = none then
          .error "At least one data field (meter_value, average_value, temperature) must be provided"
        else .ok ⟨d, mv, av, tv⟩

/-- `EnergyMetricsView._validate_metric` (lines 277-314). -/
def validate_metric : RawItem → Except String ValidMetric
  | .notDict => .error "Metric must be an object"
  | .obj m =>
    match m.timestamp with
    | none => .error "Missing required field: timestamp"
    | some (.str s) =>
      match parse_datetime s with
      | none => .error "Invalid timestamp format"
      | some d => validateNumericFields m d
    | some (.dt d) => validateNumericFields m d
    | some .other => .error "Timestamp must be a datetime string or object"

/-- `True` when `_validate_metric` rejects the item. -/
def isInvalid (it : RawItem) : Bool :=
  match validate_metric it with
  | .error _ => true
  | .ok _ => false

/-- Formatted per-index validation error
(`f"Invalid metric at index {i}: {error}"`, line 131). -/
def mkErrMsg (i : Nat) (e : String) : String :=
  "Invalid metric at index " ++ Nat.repr i ++ ": " ++ e

/-- The validation loop of `post` (lines 122-133): one pass collecting the
validated metrics and the per-index error messages, in order. -/
def validateAll (i : Nat) : List RawItem → (List ValidMetric × List String)
  | [] => ([], [])
  | it :: rest =>
    let acc := validateAll (i + 1) rest
    match validate_metric it with
    | .ok v => (v :: acc.1, acc.2)
    | .error e => (acc.1, mkErrMsg i e :: acc.2)

/-- A validated metric as it is handed to `async_add_metrics`: the dict now
carries the parsed datetime and coerced floats. -/
def toCoord (v : ValidMetric) : CoordMetric :=
  ⟨some (.dt v.timestamp), v.meter_value, v.average_value, v.temperature⟩

/-- Decoded request body after the JSON and shape checks of `post`
(lines 90-120); shapes that fail those checks are answered 400 before any
per-item validation. -/
inductive PostBody where
  /-- `{"metrics": [...]}`. -/
  | bulk (items : List RawItem)
  /-- A single metric object carrying a `timestamp` key. -/
  | single (m : RawApiMetric)
deriving DecidableEq

/-- Responses of the POST handler relevant past the shape checks. -/
inductive ApiResponse where
  /-- 200 `{"success": true, "processed_count": n}`. -/
  | ok (processed : Nat)
  /-- 400 `{"error": "Validation failed", "validation_errors": [...],
  "total_metrics": total, "valid_metrics": valid}`. -/
  | badRequest (validation_errors : List String) (total : Nat) (valid : Nat)
  /-- 500 `{"error": "Failed to store metrics data"}`. -/
  | storeFailed
deriving DecidableEq

/-- HTTP status code of each modelled response. -/
def statusCode : ApiResponse → Nat
  | .ok _ => 200
  | .badRequest _ _ _ => 400
  | .storeFailed => 500

/-- `EnergyMetricsView.post` past the shape checks (lines 122-170): validate
every item, reject the whole batch on any error, otherwise hand the validated
batch to the coordinator.  The last component reports whether
`async_add_metrics` was invoked. -/
def postModel (w : World) (saveOk : Bool) (now : DT) (body : PostBody) :
    ApiResponse × World × Bool :=
  let metrics_data := match body with
    | .bulk items => items
    | .single m => [.obj m]
  let acc := validateAll 0 metrics_data
  if acc.2.isEmpty then
    let r := async_add_metrics w saveOk now (acc.1.map toCoord)
    if r.ok then (.ok acc.1.length, r.world, true)
    else (.storeFailed, r.world, true)
  else (.badRequest acc.2 metrics_data.length acc.1.length, w, false)

deriving instance DecidableEq for Except

/-! ### Derived notions used by the claim statements -/

/-- The records a range query keeps: stored entries whose key re-parses to a
datetime `t` with `a <= t <= b` (both comparisons defined and true). -/
def rangeFilter (a b : DT) (m : List (String × MetricRecord)) : List MetricRecord :=
  m.filterMap fun p =>
    match parse_datetime p.1 with
    | none => none
    | some t =>
      match pyLeB a t with
      | none => none
      | some false => none
      | some true =>
        match pyLeB t b with
        | none => none
        | some false => none
        | some true => some p.2

/-- `True` when a stored entry increments the range query's warning counter:
only a chained comparison raising `TypeError` does — a key whose re-parse
returns `None` is skipped silently without touching the counter. -/
def scanErrB (a b : DT) (p : String × MetricRecord) : Bool :=
  match parse_datetime p.1 with
  | none => false
  | some t =>
    match pyLeB a t with
    | none => true
    | some false => false
    | some true =>
      match pyLeB t b with
      | none => true
      | _ => false

/-- Marks of items that were actually written (new or changed). -/
def goodMark : Mark → Bool
  | .isNew => true
  | .isChanged => true
  | _ => false

/-- The datetime `_validate_metric` derives from the item's timestamp value,
when it derives one. -/
def tsParsed (m : RawApiMetric) : Option DT :=
  match m.timestamp with
  | some (.str s) => parse_datetime s
  | some (.dt d) => some d
  | _ => none

/-! ### Helper lemmas: validation loop -/

theorem validateAll_snd_eq (i : Nat) (items : List RawItem) :
    (validateAll i items).2 = (items.enumFrom i).filterMap fun p =>
      match validate_metric p.2 with
      | .error e => some (mkErrMsg p.1 e)
      | .ok _ => none := by
  induction items generalizing i with
  | nil => rfl
  | cons it rest ih =>
    simp only [validateAll, List.enumFrom, List.filterMap_cons]
    cases h : validate_metric it <;> simp [h, ih]

theorem validateAll_lengths (i : Nat) (items : List RawItem) :
    (validateAll i items).1.length + (validateAll i items).2.length = items.length := by
  induction items generalizing i with
  | nil => rfl
  | cons it rest ih =>
    have h2 := ih (i + 1)
    simp only [validateAll]
    cases h : validate_metric it <;> simp [h] <;> omega

theorem validateAll_snd_nil_iff (i : Nat) (items : List RawItem) :
    (validateAll i items).2 = [] ↔ ∀ it ∈ items, isInvalid it = false := by
  induction items generalizing i with
  | nil => simp [validateAll]
  | cons it rest ih =>
    simp only [validateAll, List.mem_cons]
    cases h : validate_metric it with
    | ok v => simp [isInvalid, h, ih]
    | error e => simp [isInvalid, h]

theorem filterMap_of_filter_singleton {α β : Type} (f : α → Option β) (p : α → Bool)
    (hfp : ∀ x, (f x).isSome = p x) :
    ∀ {l : List α} {a : α}, l.filter p = [a] → ∃ b, f a = some b ∧ l.filterMap f = [b] := by
  intro l
  induction l with
  | nil => intro a h; simp at h
  | cons x xs ih =>
    intro a h
    rw [List.filter_cons] at h
    by_cases hx : p x = true
    · rw [if_pos hx] at h
      obtain ⟨hxa, hxs⟩ := List.cons_eq_cons.mp h
      subst hxa
      obtain ⟨b, hb⟩ := Option.isSome_iff_exists.mp (by rw [hfp x]; exact hx)
      refine ⟨b, hb, ?_⟩
      rw [List.filterMap_cons, hb]
      have hnil : xs.filterMap f = [] := by
        rw [List.filterMap_eq_nil_iff]
        intro y hy
        cases hfy : f y with
        | none => rfl
        | some c =>
          exfalso
          have hpy : p y = true := by rw [← hfp y, hfy]; rfl
          have hmem : y ∈ xs.filter p := List.mem_filter.mpr ⟨hy, hpy⟩
          rw [hxs] at hmem
          simp at hmem
      rw [hnil]
    · rw [if_neg hx] at h
      obtain ⟨b, hb, hl⟩ := ih h
      refine ⟨b, hb, ?_⟩
      rw [List.filterMap_cons]
      have hfx : f x = none := by
        cases hfx : f x with
        | none => rfl
        | some c =>
          exfalso
          have hs : (f x).isSome = true := by rw [hfx]; rfl
          rw [hfp x] at hs
          exact hx hs
      rw [hfx, hl]

theorem length_filterMap_eq_countP {α β : Type} (f : α → Option β) (l : List α) :
    (l.filterMap f).length = l.countP fun x => (f x).isSome := by
  induction l with
  | nil => rfl
  | cons x xs ih =>
    rw [List.filterMap_cons, List.countP_cons]
    cases hf : f x <;> simp [hf, ih]

theorem countP_enumFrom {α : Type} (q : α → Bool) (l : List α) (i : Nat) :
    (l.enumFrom i).countP (fun p => q p.2) = l.countP q := by
  induction l generalizing i with
  | nil => rfl
  | cons x xs ih => simp [List.enumFrom, List.countP_cons, ih]

/-! ### Helper lemmas: merge -/

theorem stepCore_updated_invariant (now : DT) (st : LoopState) (t : DT) (m : CoordMetric)
    (h : st.updated = st.marks.any goodMark) :
    (stepCore now st t m).updated = (stepCore now st t m).marks.any goodMark := by
  simp only [stepCore]
  split
  · simp [List.any_append, goodMark]
  · split
    · simpa [List.any_append, goodMark] using h
    · simp [List.any_append, goodMark]

theorem stepMetric_updated_invariant (now : DT) (st : LoopState) (m : CoordMetric)
    (h : st.updated = st.marks.any goodMark) :
    (stepMetric now st m).updated = (stepMetric now st m).marks.any goodMark := by
  simp only [stepMetric]
  cases hts : m.timestamp with
  | none => simpa [List.any_append, goodMark] using h
  | some t =>
    cases t with
    | str s =>
      by_cases hs : s = ""
      · simp only [if_pos hs]
        simpa [List.any_append, goodMark] using h
      · simp only [if_neg hs]
        cases hp : parse_datetime s with
        | none => simpa [List.any_append, goodMark] using h
        | some d => exact stepCore_updated_invariant now st d m h
    | dt d => exact stepCore_updated_invariant now st d m h
    | other => simpa [List.any_append, goodMark] using h

theorem foldl_updated_invariant (now : DT) (items : List CoordMetric) :
    ∀ st : LoopState, st.updated = st.marks.any goodMark →
    (items.foldl (stepMetric now) st).updated
      = (items.foldl (stepMetric now) st).marks.any goodMark := by
  induction items with
  | nil => intro st h; exact h
  | cons m rest ih =>
    intro st h
    exact ih _ (stepMetric_updated_invariant now st m h)

theorem async_add_metrics_world_of_save_fail (w : World) (now : DT)
    (items : List CoordMetric) :
    (async_add_metrics w false now items).world = w := by
  cases he : items.isEmpty with
  | false =>
    simp only [async_add_metrics, he, Bool.false_eq_true, if_false]
    by_cases hupd : (List.foldl (stepMetric now)
        ⟨(w.durable.getD emptyDataset).metrics, false, 0, 0, [], 0⟩ items).updated = true
    · rw [if_pos hupd]
    · rw [if_neg hupd]
  | true => simp only [async_add_metrics, he, if_true]

theorem async_add_metrics_ok_of_saveCalled_fail (w : World) (now : DT)
    (items : List CoordMetric)
    (h : (async_add_metrics w false now items).saveCalled = true) :
    (async_add_metrics w false now items).ok = false := by
  cases he : items.isEmpty with
  | false =>
    simp only [async_add_metrics, he, Bool.false_eq_true, if_false] at h ⊢
    by_cases hupd : (List.foldl (stepMetric now)
        ⟨(w.durable.getD emptyDataset).metrics, false, 0, 0, [], 0⟩ items).updated = true
    · rw [if_pos hupd]
    · rw [if_neg hupd] at h
      exact absurd h (by simp)
  | true => simp only [async_add_metrics, he, if_true] at h ⊢


/-! ### Helper lemmas: latest -/

theorem lexLtB_asymm {a b : List Char} (h : lexLtB a b = true) : lexLtB b a = false := by
  induction a generalizing b with
  | nil => cases b with
    | nil => simp [lexLtB] at h
    | cons y ys => rfl
  | cons x xs ih =>
    cases b with
    | nil => simp [lexLtB] at h
    | cons y ys =>
      simp only [lexLtB] at h ⊢
      rcases Nat.lt_trichotomy x.toNat y.toNat with hc | hc | hc
      · simp [hc, Nat.lt_asymm hc]
      · simp only [hc, lt_self_iff_false, if_false] at h ⊢
        exact ih h
      · simp [hc, Nat.lt_asymm hc] at h

theorem lexLeB_of_lexLtB {a b : List Char} (h : lexLtB a b = true) : lexLeB a b = true := by
  rw [lexLeB_eq_not_lexLtB, lexLtB_asymm h]
  rfl

theorem lexLeB_of_not_lexLtB {a b : List Char} (h : lexLtB a b = false) :
    lexLeB b a = true := by
  rw [lexLeB_eq_not_lexLtB, h]
  rfl

theorem maxKeyAux_mem (ks : List String) : ∀ k : String, maxKeyAux k ks ∈ k :: ks := by
  induction ks with
  | nil => intro k; simp [maxKeyAux]
  | cons k2 rest ih =>
    intro k
    simp only [maxKeyAux, List.foldl_cons]
    by_cases h : pyStrLt k k2 = true
    · rw [if_pos h]
      have := ih k2
      simp only [maxKeyAux] at this
      rcases List.mem_cons.mp this with h2 | h2
      · simp [h2]
      · simp [List.mem_cons, h2]
    · rw [if_neg h]
      have := ih k
      simp only [maxKeyAux] at this
      rcases List.mem_cons.mp this with h2 | h2
      · simp [h2]
      · simp [List.mem_cons, h2]

theorem maxKeyAux_upper (ks : List String) :
    ∀ k : String, ∀ x ∈ k :: ks, pyStrLe x (maxKeyAux k ks) = true := by
  induction ks with
  | nil =>
    intro k x hx
    rcases List.mem_cons.mp hx with h | h
    · subst h; exact lexLeB_refl _
    · simp at h
  | cons k2 rest ih =>
    intro k x hx
    simp only [maxKeyAux, List.foldl_cons]
    set nk := if pyStrLt k k2 then k2 else k with hnk
    have hknk : pyStrLe k nk = true := by
      by_cases h : pyStrLt k k2 = true
      · rw [hnk, if_pos h]
        exact lexLeB_of_lexLtB h
      · rw [hnk, if_neg h]
        exact lexLeB_refl _
    have hk2nk : pyStrLe k2 nk = true := by
      by_cases h : pyStrLt k k2 = true
      · rw [hnk, if_pos h]
        exact lexLeB_refl _
      · rw [hnk, if_neg h]
        exact lexLeB_of_not_lexLtB (Bool.eq_false_iff.mpr h)
    have hub := ih nk
    have hnkmax : pyStrLe nk (maxKeyAux nk rest) = true :=
      hub nk (List.mem_cons_self nk rest)
    rcases List.mem_cons.mp hx with h | h
    · subst h
      exact lexLeB_trans hknk hnkmax
    · rcases List.mem_cons.mp h with h2 | h2
      · subst h2
        exact lexLeB_trans hk2nk hnkmax
      · exact hub x (List.mem_cons_of_mem nk h2)

theorem dictGet_cons {α : Type} (p : String × α) (rest : List (String × α)) (k : String) :
    dictGet (p :: rest) k = if p.1 == k then some p.2 else dictGet rest k := by
  simp only [dictGet, List.find?]
  cases h : p.1 == k <;> simp [h]

theorem dictGet_eq_some_of_mem {α : Type} (m : List (String × α)) (k : String) (v : α)
    (hnd : (m.map fun p => p.1).Nodup) (hmem : (k, v) ∈ m) :
    dictGet m k = some v := by
  induction m with
  | nil => simp at hmem
  | cons p rest ih =>
    rw [dictGet_cons]
    rcases List.mem_cons.mp hmem with h | h
    · subst h
      simp
    · have hk : p.1 ≠ k := by
        intro hk
        have hmem2 : k ∈ rest.map fun q => q.1 := List.mem_map.mpr ⟨(k, v), h, rfl⟩
        rw [List.map_cons] at hnd
        exact (List.nodup_cons.mp hnd).1 (hk ▸ hmem2)
      have hnd2 : (rest.map fun q => q.1).Nodup := by
        rw [List.map_cons] at hnd
        exact (List.nodup_cons.mp hnd).2
      rw [if_neg (by simpa using hk)]
      exact ih hnd2 h

theorem mem_of_mem_keys {α : Type} (m : List (String × α)) (k : String)
    (h : k ∈ m.map fun p => p.1) : ∃ v, (k, v) ∈ m := by
  rcases List.mem_map.mp h with ⟨⟨k1, v⟩, hp, hk⟩
  dsimp only at hk
  subst hk
  exact ⟨v, hp⟩

/-! ### Helper lemmas: range -/

theorem rangeScan_eq (a b : DT) (m : List (String × MetricRecord)) :
    rangeScan a b m = (rangeFilter a b m, m.countP (scanErrB a b)) := by
  induction m with
  | nil => rfl
  | cons p rest ih =>
    cases hp : parse_datetime p.1 with
    | none =>
      simp [rangeScan, rangeFilter, scanErrB, hp, ih, List.countP_cons, List.filterMap_cons]
    | some t =>
      cases h1 : pyLeB a t with
      | none =>
        simp [rangeScan, rangeFilter, scanErrB, hp, h1, ih, List.countP_cons,
          List.filterMap_cons]
      | some v1 =>
        cases v1 with
        | false =>
          simp [rangeScan, rangeFilter, scanErrB, hp, h1, ih, List.countP_cons,
            List.filterMap_cons]
        | true =>
          cases h2 : pyLeB t b with
          | none =>
            simp [rangeScan, rangeFilter, scanErrB, hp, h1, h2, ih, List.countP_cons,
              List.filterMap_cons]
          | some v2 =>
            cases v2 <;>
              simp [rangeScan, rangeFilter, scanErrB, hp, h1, h2, ih, List.countP_cons,
                List.filterMap_cons]

/-! ### Helper lemmas: statistics export -/

theorem statsLoop_eq (l : List CoordMetric)
    (h : ∀ m ∈ l, m.timestamp ≠ some .other) :
    statsLoop l = some (l.filterMap energyStatOf, l.filterMap tempStatOf) := by
  induction l with
  | nil => rfl
  | cons m rest ih =>
    have hm := h m (List.mem_cons_self m rest)
    have hrest := ih fun x hx => h x (List.mem_cons_of_mem m hx)
    simp only [statsLoop, List.filterMap_cons]
    cases hts : m.timestamp with
    | none =>
      rw [hrest]
      simp [energyStatOf, tempStatOf, hts, Option.toList]
    | some t =>
      cases t with
      | str s =>
        rw [hrest]
        cases hp : parse_datetime s <;>
          cases hmv : m.meter_value <;> cases htv : m.temperature <;>
            simp [energyStatOf, tempStatOf, hts, hp, hmv, htv, Option.toList]
      | dt d =>
        rw [hrest]
        cases hmv : m.meter_value <;> cases htv : m.temperature <;>
          simp [energyStatOf, tempStatOf, hts, hmv, htv, Option.toList]
      | other => exact absurd hts hm

theorem statsLoop_some_no_other (l : List CoordMetric) (p : List EnergyStat × List TempStat)
    (h : statsLoop l = some p) : ∀ m ∈ l, m.timestamp ≠ some .other := by
  induction l generalizing p with
  | nil => intro m hm; simp at hm
  | cons x xs ih =>
    intro m hm
    simp only [statsLoop] at h
    rcases List.mem_cons.mp hm with hmx | hmx
    · subst hmx
      intro hother
      rw [hother] at h
      simp at h
    · cases hts : x.timestamp with
      | none =>
        rw [hts] at h
        cases hrest : statsLoop xs with
        | none => rw [hrest] at h; simp at h
        | some q => exact ih q hrest m hmx
      | some t =>
        rw [hts] at h
        cases t with
        | other => simp at h
        | str s =>
          cases hrest : statsLoop xs with
          | none => rw [hrest] at h; simp at h
          | some q => exact ih q hrest m hmx
        | dt d =>
          cases hrest : statsLoop xs with
          | none => rw [hrest] at h; simp at h
          | some q => exact ih q hrest m hmx

/-! ### Concrete fixtures shared by witnesses and counterexamples -/

/-- 2024-01-01 10:00:00 UTC. -/
def sampleDT1 : DT := ⟨2024, 1, 1, 10, 0, 0, 0, some 0⟩

/-- 2024-01-01 11:00:00 UTC. -/
def sampleDT2 : DT := ⟨2024, 1, 1, 11, 0, 0, 0, some 0⟩

/-- A `utcnow` instant. -/
def sampleNow1 : DT := ⟨2024, 1, 2, 0, 0, 0, 0, some 0⟩

/-- A later `utcnow` instant. -/
def sampleNow2 : DT := ⟨2024, 1, 2, 0, 0, 1, 0, some 0⟩

/-- A plain meter reading at 10:00Z. -/
def sampleMeterA : CoordMetric := ⟨some (.dt sampleDT1), some 100, none, none⟩

/-- A plain meter reading at 11:00Z. -/
def sampleMeterB : CoordMetric := ⟨some (.dt sampleDT2), some 101, none, none⟩

/-- A valid API item. -/
def sampleValidItem : RawItem := .obj ⟨some (.dt sampleDT1), some (.num 1), none, none⟩

/-- An API item with all three data fields absent. -/
def sampleInvalidItem : RawItem := .obj ⟨some (.dt sampleDT2), none, none, none⟩

/-- Stored record keyed `2024-01-01T10:30:00+00:00` (instant 10:30Z). -/
def recMixA : MetricRecord :=
  ⟨"2024-01-01T10:30:00+00:00", some 1, none, none, "2024-01-02T00:00:00+00:00"⟩

/-- Stored record keyed `2024-01-01T11:00:00+01:00` (instant 10:00Z). -/
def recMixB : MetricRecord :=
  ⟨"2024-01-01T11:00:00+01:00", some 2, none, none, "2024-01-02T00:00:00+00:00"⟩

/-- A world whose dataset holds `recMixA` and `recMixB`: two keys with
different UTC offsets, reachable by ingesting those two timestamp strings. -/
def wMix : World :=
  ⟨some ⟨[("2024-01-01T10:30:00+00:00", recMixA), ("2024-01-01T11:00:00+01:00", recMixB)],
    none⟩, emptyDataset⟩

/-- A record stored under a key that does not re-parse. -/
def recBadKey : MetricRecord :=
  ⟨"not-a-timestamp", some 3, none, none, "2024-01-02T00:00:00+00:00"⟩

/-- A world whose dataset holds one record under an unparsable key. -/
def wBadKey : World :=
  ⟨some ⟨[("not-a-timestamp", recBadKey)], none⟩, emptyDataset⟩

/-! ### Claims -/

/-- Claim C9: a POST body `{"metrics": []}` passes the shape checks and yields
no validation errors, but `async_add_metrics` returns `False` for an empty
list, so the request is answered 500 (`Failed to store metrics data`), not
200. -/
theorem claim_C9 (w : World) (saveOk : Bool) (now : DT) :
    postModel w saveOk now (.bulk []) = (.storeFailed, w, true) ∧
    statusCode (postModel w saveOk now (.bulk [])).1 = 500 :=
  ⟨rfl, rfl⟩

/-- Claim C10: the store layer does not enforce the at-least-one-data-field
invariant: a record with a valid timestamp and all three data fields `None`,
handed directly to `async_add_metrics` (fresh key), is warned about but still
stored, persisted and counted as processed, and the call returns `True`. -/
theorem claim_C10 (w : World) (now d : DT)
    (hfresh : dictGet (w.durable.getD emptyDataset).metrics d.isoformat = none) :
    let r := async_add_metrics w true now [⟨some (.dt d), none, none, none⟩]
    r.ok = true ∧ r.saveCalled = true ∧ r.noDataWarnings = 1 ∧ r.processed = 1 ∧
    r.errorCount = 0 ∧ r.marks = [.isNew] ∧
    r.world.durable = some ⟨dictSet (w.durable.getD emptyDataset).metrics d.isoformat
      ⟨d.isoformat, none, none, none, now.isoformat⟩, some now.isoformat⟩ := by
  simp only [async_add_metrics, List.foldl, stepMetric, stepCore, hfresh, List.isEmpty_cons]
  simp

/-- Witness for C10 at a concrete fresh store. -/
theorem claim_C10_witness :
    dictGet (emptyWorld.durable.getD emptyDataset).metrics sampleDT1.isoformat = none ∧
    (async_add_metrics emptyWorld true sampleNow1
      [⟨some (.dt sampleDT1), none, none, none⟩]).ok = true :=
  ⟨rfl, (claim_C10 emptyWorld sampleNow1 sampleDT1 rfl).1⟩

/-- Claim C1 evaluation at the failing input: re-ingesting the very record
just stored, at a later `utcnow`, is marked changed (because `created_at` is
part of the line-117 dict comparison) and a second save is issued — the
idempotence the spec claims does not hold. -/
theorem claim_C1_code_eval :
    (async_add_metrics ((async_add_metrics emptyWorld true sampleNow1 [sampleMeterA]).world)
        true sampleNow2 [sampleMeterA]).marks = [.isChanged] ∧
    (async_add_metrics ((async_add_metrics emptyWorld true sampleNow1 [sampleMeterA]).world)
        true sampleNow2 [sampleMeterA]).saveCalled = true ∧
    (async_add_metrics ((async_add_metrics emptyWorld true sampleNow1 [sampleMeterA]).world)
        true sampleNow1 [sampleMeterA]).marks = [.isUnchanged] := by decide

/-- Claim C2: if any item of a batch fails validation, the whole batch is
rejected 400 with the full per-index error list, `async_add_metrics` is never
invoked and the store is unchanged; with exactly one invalid item at index
`i` the error list is the one message for index `i`. -/
theorem claim_C2 (w : World) (saveOk : Bool) (now : DT) (items : List RawItem)
    (h : ∃ it ∈ items, isInvalid it = true) :
    ∃ es nv,
      postModel w saveOk now (.bulk items) = (.badRequest es items.length nv, w, false) ∧
      statusCode (.badRequest es items.length nv) = 400 ∧
      es = (items.enumFrom 0).filterMap (fun p =>
        match validate_metric p.2 with
        | .error e => some (mkErrMsg p.1 e)
        | .ok _ => none) ∧
      es.length = items.countP isInvalid ∧
      nv + es.length = items.length ∧
      (∀ i it2, (items.enumFrom 0).filter (fun p => isInvalid p.2) = [(i, it2)] →
        ∃ e, validate_metric it2 = .error e ∧ es = [mkErrMsg i e]) := by
  have hfp : ∀ (p : Nat × RawItem),
      ((match validate_metric p.2 with
        | .error e => some (mkErrMsg p.1 e)
        | .ok _ => none) : Option String).isSome = isInvalid p.2 := by
    intro p
    cases hv : validate_metric p.2 <;> simp [hv, isInvalid]
  have hne : (validateAll 0 items).2 ≠ [] := by
    rw [Ne, validateAll_snd_nil_iff]
    intro hall
    obtain ⟨it, hit, hinv⟩ := h
    rw [hall it hit] at hinv
    exact Bool.false_ne_true hinv
  refine ⟨(validateAll 0 items).2, (validateAll 0 items).1.length, ?_, rfl, ?_, ?_, ?_, ?_⟩
  · simp only [postModel]
    rw [if_neg (by simpa [List.isEmpty_iff] using hne)]
  · exact validateAll_snd_eq 0 items
  · rw [validateAll_snd_eq, length_filterMap_eq_countP]
    have hfun : (fun (p : Nat × RawItem) =>
        ((match validate_metric p.2 with
          | .error e => some (mkErrMsg p.1 e)
          | .ok _ => none) : Option String).isSome) = fun p => isInvalid p.2 := by
      funext p
      exact hfp p
    rw [hfun, countP_enumFrom]
  · have := validateAll_lengths 0 items
    omega
  · intro i it2 hfil
    obtain ⟨b, hb, hl⟩ := filterMap_of_filter_singleton _ _ hfp hfil
    cases hv : validate_metric it2 with
    | ok v =>
      rw [show validate_metric (i, it2).2 = .ok v from hv] at hb
      simp at hb
    | error e =>
      refine ⟨e, rfl, ?_⟩
      rw [show validate_metric (i, it2).2 = .error e from hv] at hb
      simp only [Option.some.injEq] at hb
      rw [validateAll_snd_eq, hl, ← hb]

/-- Witness for C2: a batch with one invalid item among two is rejected 400
with the merge not invoked. -/
theorem claim_C2_witness :
    (∃ it ∈ ([sampleValidItem, sampleInvalidItem] : List RawItem), isInvalid it = true) ∧
    (∃ es nv, postModel emptyWorld true sampleNow1
      (.bulk [sampleValidItem, sampleInvalidItem]) = (.badRequest es 2 nv, emptyWorld, false)) := by
  refine ⟨⟨sampleInvalidItem, by decide, by decide⟩, ?_⟩
  obtain ⟨es, nv, h1, -⟩ := claim_C2 emptyWorld true sampleNow1
    [sampleValidItem, sampleInvalidItem] ⟨sampleInvalidItem, by decide, by decide⟩
  exact ⟨es, nv, h1⟩

/-- Claim C6: when the adapter's save fails during a merge that attempted it,
the POST is answered 500, the durable dataset and the in-memory cache are
untouched (the pre-merge snapshot), so subsequent `latest()` / `range()`
calls reflect the pre-merge dataset. -/
theorem claim_C6 (w : World) (now : DT) (items : List RawItem)
    (hval : (validateAll 0 items).2 = [])
    (hsave : (async_add_metrics w false now
      ((validateAll 0 items).1.map toCoord)).saveCalled = true) :
    postModel w false now (.bulk items) = (.storeFailed, w, true) ∧
    statusCode (postModel w false now (.bulk items)).1 = 500 ∧
    (postModel w false now (.bulk items)).2.1 = w ∧
    async_get_latest_metrics ((postModel w false now (.bulk items)).2.1)
      = async_get_latest_metrics w ∧
    (∀ a b, async_get_metrics_range a b ((postModel w false now (.bulk items)).2.1)
      = async_get_metrics_range a b w) := by
  have hok := async_add_metrics_ok_of_saveCalled_fail w now
    ((validateAll 0 items).1.map toCoord) hsave
  have hw := async_add_metrics_world_of_save_fail w now
    ((validateAll 0 items).1.map toCoord)
  have hpost : postModel w false now (.bulk items) = (.storeFailed, w, true) := by
    simp only [postModel]
    rw [if_pos (by simp [hval]), if_neg (by simp [hok]), hw]
  exact ⟨hpost, by rw [hpost]; rfl, by rw [hpost], by rw [hpost], fun a b => by rw [hpost]⟩

/-- Witness for C6: one new valid record, save failing. -/
theorem claim_C6_witness :
    (validateAll 0 [sampleValidItem]).2 = [] ∧
    (async_add_metrics emptyWorld false sampleNow1
      ((validateAll 0 [sampleValidItem]).1.map toCoord)).saveCalled = true ∧
    postModel emptyWorld false sampleNow1 (.bulk [sampleValidItem])
      = (.storeFailed, emptyWorld, true) ∧
    async_get_latest_metrics ((postModel emptyWorld false sampleNow1
      (.bulk [sampleValidItem])).2.1) = async_get_latest_metrics emptyWorld ∧
    async_get_metrics_range sampleDT1 sampleDT2 ((postModel emptyWorld false sampleNow1
      (.bulk [sampleValidItem])).2.1)
      = async_get_metrics_range sampleDT1 sampleDT2 emptyWorld := by
  have h := claim_C6 emptyWorld sampleNow1 [sampleValidItem] (by decide) (by decide)
  exact ⟨by decide, by decide, h.1, h.2.2.2.1, h.2.2.2.2 sampleDT1 sampleDT2⟩

/-- Claim C4 (amended): for a well-ordered query (`start <= end`),
`range` returns exactly the stored records whose key re-parses to an instant
`t` with `a <= t <= b` (inclusive both ends), sorted ascending by the record's
canonical timestamp string — which is chronological order only when all keys
share one UTC offset.  Keys that fail to re-parse are skipped silently, with
no warning counted; the warning counter counts only comparison errors
(`TypeError` between naive and aware datetimes); neither aborts the query.
An inverted range returns an empty result rather than an error. -/
theorem claim_C4_amended (w : World) (a b : DT) :
    (pyCmp a b = some .gt → async_get_metrics_range a b w = some ([], 0)) ∧
    (pyLeB a b = some true →
      ∃ l, async_get_metrics_range a b w
          = some (l, (w.durable.getD emptyDataset).metrics.countP (scanErrB a b)) ∧
        l.Perm (rangeFilter a b (w.durable.getD emptyDataset).metrics) ∧
        List.Sorted recLe l ∧
        (∀ r, r ∈ l ↔ r ∈ rangeFilter a b (w.durable.getD emptyDataset).metrics)) ∧
    (∀ (k : String) (r : MetricRecord) (m : List (String × MetricRecord)),
      parse_datetime k = none →
      scanErrB a b (k, r) = false ∧ rangeFilter a b ((k, r) :: m) = rangeFilter a b m) := by
  refine ⟨?_, ?_, ?_⟩
  · intro hgt
    simp only [async_get_metrics_range, hgt]
  · intro hle
    have hcmp : pyCmp a b = some .lt ∨ pyCmp a b = some .eq := by
      simp only [pyLeB] at hle
      cases hc : pyCmp a b with
      | none => rw [hc] at hle; simp at hle
      | some o =>
        rw [hc] at hle
        cases o with
        | lt => exact Or.inl rfl
        | eq => exact Or.inr rfl
        | gt => simp at hle
    have hsorted : List.Sorted recLe (List.insertionSort recLe
        (rangeScan a b (w.durable.getD emptyDataset).metrics).1) :=
      List.sorted_insertionSort recLe _
    have hperm : (List.insertionSort recLe
        (rangeScan a b (w.durable.getD emptyDataset).metrics).1).Perm
        (rangeFilter a b (w.durable.getD emptyDataset).metrics) := by
      rw [rangeScan_eq]
      exact List.perm_insertionSort recLe _
    refine ⟨List.insertionSort recLe (rangeScan a b (w.durable.getD emptyDataset).metrics).1,
      ?_, hperm, hsorted, fun r => hperm.mem_iff⟩
    rcases hcmp with hc | hc <;>
      simp only [async_get_metrics_range, hc, rangeScan_eq]
  · intro k r m hk
    constructor
    · simp [scanErrB, hk]
    · simp [rangeFilter, List.filterMap_cons, hk]

/-- Witness for C4 on a concrete dataset and bounds. -/
theorem claim_C4_witness :
    (pyCmp ⟨2024,1,1,12,0,0,0,some 0⟩ ⟨2024,1,1,9,0,0,0,some 0⟩ = some .gt ∧
      async_get_metrics_range ⟨2024,1,1,12,0,0,0,some 0⟩ ⟨2024,1,1,9,0,0,0,some 0⟩ wMix
        = some ([], 0)) ∧
    (pyLeB ⟨2024,1,1,9,0,0,0,some 0⟩ ⟨2024,1,1,12,0,0,0,some 0⟩ = some true ∧
      ∃ l, async_get_metrics_range ⟨2024,1,1,9,0,0,0,some 0⟩ ⟨2024,1,1,12,0,0,0,some 0⟩ wMix
          = some (l, (wMix.durable.getD emptyDataset).metrics.countP
            (scanErrB ⟨2024,1,1,9,0,0,0,some 0⟩ ⟨2024,1,1,12,0,0,0,some 0⟩)) ∧
        List.Sorted recLe l) ∧
    (parse_datetime "not-a-timestamp" = none ∧
      scanErrB ⟨2024,1,1,9,0,0,0,some 0⟩ ⟨2024,1,1,12,0,0,0,some 0⟩
        ("not-a-timestamp", recBadKey) = false) := by
  refine ⟨?_, ?_, ?_⟩
  · exact ⟨by decide, (claim_C4_amended wMix _ _).1 (by decide)⟩
  · refine ⟨by decide, ?_⟩
    obtain ⟨l, h1, -, h3, -⟩ := (claim_C4_amended wMix ⟨2024,1,1,9,0,0,0,some 0⟩
      ⟨2024,1,1,12,0,0,0,some 0⟩).2.1 (by decide)
    exact ⟨l, h1, h3⟩
  · exact ⟨by decide, ((claim_C4_amended wBadKey ⟨2024,1,1,9,0,0,0,some 0⟩
      ⟨2024,1,1,12,0,0,0,some 0⟩).2.2 "not-a-timestamp" recBadKey [] (by decide)).1⟩

/-- Counterexample to C4 as stated, in two parts.  Sort order: on a dataset
with keys at different UTC offsets the result is sorted by the key string, not
ascending by instant — the output lists the 10:30Z record before the 10:00Z
record.  Warning count: a record under an unparsable key is skipped with a
warning count of 0, not counted as the claim says. -/
theorem claim_C4_counterexample :
    async_get_metrics_range ⟨2024,1,1,9,0,0,0,some 0⟩ ⟨2024,1,1,12,0,0,0,some 0⟩ wMix
      = some ([recMixA, recMixB], 0) ∧
    parse_datetime recMixA.timestamp = some ⟨2024,1,1,10,30,0,0,some 0⟩ ∧
    parse_datetime recMixB.timestamp = some ⟨2024,1,1,11,0,0,0,some 60⟩ ∧
    pyCmp ⟨2024,1,1,11,0,0,0,some 60⟩ ⟨2024,1,1,10,30,0,0,some 0⟩ = some .lt ∧
    parse_datetime "not-a-timestamp" = none ∧
    async_get_metrics_range ⟨2024,1,1,9,0,0,0,some 0⟩ ⟨2024,1,1,12,0,0,0,some 0⟩ wBadKey
      = some ([], 0) := by
  refine ⟨?_, by decide, by decide, by decide, by decide, by decide⟩
  decide

/-! ### Lexicographic order of canonical keys vs chronology -/

theorem digitChar_toNat (n : Nat) (h : n ≤ 9) : (digitChar n).toNat = 48 + n := by
  interval_cases n <;> decide

theorem lexLtB_cons_cons (c : Char) (xs ys : List Char) :
    lexLtB (c :: xs) (c :: ys) = lexLtB xs ys := by
  simp [lexLtB]

theorem lexLtB_pad2 (a b : Nat) (xs ys : List Char) (ha : a ≤ 99) (hb : b ≤ 99) :
    lexLtB (pad2 a ++ xs) (pad2 b ++ ys)
      = (if a < b then true else if b < a then false else lexLtB xs ys) := by
  have h1 : (digitChar (a / 10)).toNat = 48 + a / 10 := digitChar_toNat _ (by omega)
  have h2 : (digitChar (a % 10)).toNat = 48 + a % 10 := digitChar_toNat _ (by omega)
  have h3 : (digitChar (b / 10)).toNat = 48 + b / 10 := digitChar_toNat _ (by omega)
  have h4 : (digitChar (b % 10)).toNat = 48 + b % 10 := digitChar_toNat _ (by omega)
  simp only [pad2, List.cons_append, List.nil_append, lexLtB, h1, h2, h3, h4]
  split_ifs <;> first | rfl | (exfalso; omega)

theorem lexLtB_pad4 (a b : Nat) (xs ys : List Char) (ha : a ≤ 9999) (hb : b ≤ 9999) :
    lexLtB (pad4 a ++ xs) (pad4 b ++ ys)
      = (if a < b then true else if b < a then false else lexLtB xs ys) := by
  have h1 : (digitChar (a / 1000)).toNat = 48 + a / 1000 := digitChar_toNat _ (by omega)
  have h2 : (digitChar (a / 100 % 10)).toNat = 48 + a / 100 % 10 := digitChar_toNat _ (by omega)
  have h3 : (digitChar (a / 10 % 10)).toNat = 48 + a / 10 % 10 := digitChar_toNat _ (by omega)
  have h4 : (digitChar (a % 10)).toNat = 48 + a % 10 := digitChar_toNat _ (by omega)
  have h5 : (digitChar (b / 1000)).toNat = 48 + b / 1000 := digitChar_toNat _ (by omega)
  have h6 : (digitChar (b / 100 % 10)).toNat = 48 + b / 100 % 10 := digitChar_toNat _ (by omega)
  have h7 : (digitChar (b / 10 % 10)).toNat = 48 + b / 10 % 10 := digitChar_toNat _ (by omega)
  have h8 : (digitChar (b % 10)).toNat = 48 + b % 10 := digitChar_toNat _ (by omega)
  simp only [pad4, List.cons_append, List.nil_append, lexLtB, h1, h2, h3, h4, h5, h6, h7, h8]
  split_ifs <;> first | rfl | (exfalso; omega)

theorem validFields_bounds (d : DT) (h : d.validFields = true) :
    d.year ≤ 9999 ∧ d.month ≤ 99 ∧ d.day ≤ 99 ∧ d.hour ≤ 99 ∧ d.minute ≤ 99 ∧
      d.second ≤ 99 := by
  have hdm : daysInMonth d.year d.month ≤ 31 := by
    unfold daysInMonth
    split_ifs <;> omega
  simp only [DT.validFields, Bool.and_eq_true, decide_eq_true_eq] at h
  omega

/-- Boolean lexicographic chain on pairs of naturals. -/
def natPairLexB : List (Nat × Nat) → Bool
  | [] => false
  | (a, b) :: rest => if a < b then true else if b < a then false else natPairLexB rest

/-- Ordering-valued lexicographic chain on pairs of naturals. -/
def natPairLexO : List (Nat × Nat) → Ordering
  | [] => .eq
  | (a, b) :: rest => if a < b then .lt else if b < a then .gt else natPairLexO rest

theorem natPairLexB_iff_lt (l : List (Nat × Nat)) :
    natPairLexB l = true ↔ natPairLexO l = .lt := by
  induction l with
  | nil => simp [natPairLexB, natPairLexO]
  | cons p rest ih =>
    obtain ⟨a, b⟩ := p
    simp only [natPairLexB, natPairLexO]
    rcases Nat.lt_trichotomy a b with h | h | h
    · simp [h]
    · simp [h, Nat.lt_irrefl, ih]
    · simp [h, Nat.lt_asymm h]

/-- For two canonical keys rendered with whole-second precision and the same
UTC offset, Python string order coincides with Python datetime order. -/
theorem isoformat_lt_iff (d1 d2 : DT) (h1 : d1.validFields = true)
    (h2 : d2.validFields = true) (hu1 : d1.usec = 0) (hu2 : d2.usec = 0)
    (o : Int) (ho1 : d1.offset = some o) (ho2 : d2.offset = some o) :
    (pyStrLt d1.isoformat d2.isoformat = true ↔ pyCmp d1 d2 = some .lt) := by
  obtain ⟨hy1, hmo1, hd1, hh1, hmi1, hs1⟩ := validFields_bounds d1 h1
  obtain ⟨hy2, hmo2, hd2, hh2, hmi2, hs2⟩ := validFields_bounds d2 h2
  have hL : pyStrLt d1.isoformat d2.isoformat = lexLtB d1.isoChars d2.isoChars := rfl
  rw [hL]
  simp only [DT.isoChars, hu1, hu2, ho1, ho2, if_pos rfl, List.nil_append]
  rw [lexLtB_pad4 _ _ _ _ hy1 hy2, lexLtB_cons_cons, lexLtB_pad2 _ _ _ _ hmo1 hmo2,
    lexLtB_cons_cons, lexLtB_pad2 _ _ _ _ hd1 hd2, lexLtB_cons_cons,
    lexLtB_pad2 _ _ _ _ hh1 hh2, lexLtB_cons_cons, lexLtB_pad2 _ _ _ _ hmi1 hmi2,
    lexLtB_cons_cons, lexLtB_pad2 _ _ _ _ hs1 hs2, lexLtB_irrefl]
  simp only [pyCmp, ho1, ho2, if_pos rfl, if_true, Option.some.injEq, fieldCmp, hu1, hu2,
    Nat.lt_irrefl]
  have key := natPairLexB_iff_lt [(d1.year, d2.year), (d1.month, d2.month),
    (d1.day, d2.day), (d1.hour, d2.hour), (d1.minute, d2.minute), (d1.second, d2.second)]
  simp only [natPairLexB, natPairLexO] at key
  exact key

/-- Claim C5 (amended): `latest()` returns the record at the lexicographically
greatest canonical key (none on an empty dataset); lexicographic key order is
chronological order for whole-second keys sharing one UTC offset — with mixed
offsets the lexicographic maximum need not be the chronologically most recent
record. -/
theorem claim_C5_amended (w : World) :
    ((w.durable.getD emptyDataset).metrics = [] → async_get_latest_metrics w = none) ∧
    (∀ k0 r0 rest, (w.durable.getD emptyDataset).metrics = (k0, r0) :: rest →
      ((((k0, r0) :: rest).map fun p => p.1).Nodup) →
      ∃ kmax r, async_get_latest_metrics w = some r ∧ (kmax, r) ∈ (k0, r0) :: rest ∧
        ∀ k ∈ ((k0, r0) :: rest).map fun p => p.1, pyStrLe k kmax = true) ∧
    (∀ d1 d2 : DT, d1.validFields = true → d2.validFields = true →
      d1.usec = 0 → d2.usec = 0 → ∀ o : Int, d1.offset = some o → d2.offset = some o →
      (pyStrLt d1.isoformat d2.isoformat = true ↔ pyCmp d1 d2 = some .lt)) := by
  refine ⟨?_, ?_, ?_⟩
  · intro h
    simp [async_get_latest_metrics, h]
  · intro k0 r0 rest hmet hnd
    have hmem : maxKeyAux k0 (rest.map fun p => p.1) ∈ k0 :: rest.map fun p => p.1 :=
      maxKeyAux_mem _ k0
    have hmem2 : maxKeyAux k0 (rest.map fun p => p.1) ∈ ((k0, r0) :: rest).map fun p => p.1 := by
      simpa using hmem
    obtain ⟨v, hv⟩ := mem_of_mem_keys _ _ hmem2
    have hget : dictGet ((k0, r0) :: rest) (maxKeyAux k0 (rest.map fun p => p.1)) = some v :=
      dictGet_eq_some_of_mem _ _ _ hnd hv
    refine ⟨maxKeyAux k0 (rest.map fun p => p.1), v, ?_, hv, ?_⟩
    · simp only [async_get_latest_metrics, hmet]
      exact hget
    · intro k hk
      have hk2 : k ∈ k0 :: rest.map fun p => p.1 := by simpa using hk
      exact maxKeyAux_upper _ k0 k hk2
  · intro d1 d2 h1 h2 hu1 hu2 o ho1 ho2
    exact isoformat_lt_iff d1 d2 h1 h2 hu1 hu2 o ho1 ho2

/-- Witness for C5 on concrete datasets and keys. -/
theorem claim_C5_witness :
    ((emptyWorld.durable.getD emptyDataset).metrics = [] ∧
      async_get_latest_metrics emptyWorld = none) ∧
    (∃ kmax r, async_get_latest_metrics wMix = some r ∧
      (kmax, r) ∈ (wMix.durable.getD emptyDataset).metrics) ∧
    (pyStrLt (DT.isoformat ⟨2024,1,1,10,0,0,0,some 0⟩) (DT.isoformat ⟨2024,1,1,11,0,0,0,some 0⟩)
        = true ↔
      pyCmp ⟨2024,1,1,10,0,0,0,some 0⟩ ⟨2024,1,1,11,0,0,0,some 0⟩ = some .lt) := by
  refine ⟨⟨rfl, (claim_C5_amended emptyWorld).1 rfl⟩, ?_, ?_⟩
  · obtain ⟨kmax, r, ha, hb, -⟩ := (claim_C5_amended wMix).2.1
      "2024-01-01T10:30:00+00:00" recMixA
      [("2024-01-01T11:00:00+01:00", recMixB)] rfl (by decide)
    exact ⟨kmax, r, ha, hb⟩
  · exact (claim_C5_amended wMix).2.2 ⟨2024,1,1,10,0,0,0,some 0⟩ ⟨2024,1,1,11,0,0,0,some 0⟩
      (by decide) (by decide) rfl rfl 0 rfl rfl

/-- Counterexample to C5 as stated: on a dataset with keys at two different
UTC offsets, `latest()` returns the record at the lexicographically greatest
key, but that record's instant (10:00Z) is strictly earlier than the other
stored record's instant (10:30Z). -/
theorem claim_C5_counterexample :
    async_get_latest_metrics wMix = some recMixB ∧
    parse_datetime recMixB.timestamp = some ⟨2024,1,1,11,0,0,0,some 60⟩ ∧
    parse_datetime recMixA.timestamp = some ⟨2024,1,1,10,30,0,0,some 0⟩ ∧
    pyStrLt recMixA.timestamp recMixB.timestamp = true ∧
    pyCmp ⟨2024,1,1,11,0,0,0,some 60⟩ ⟨2024,1,1,10,30,0,0,some 0⟩ = some .lt := by
  decide

theorem natPairLexO_eq (l : List (Nat × Nat)) (h : natPairLexO l = .eq) :
    ∀ p ∈ l, p.1 = p.2 := by
  induction l with
  | nil => intro p hp; simp at hp
  | cons q rest ih =>
    obtain ⟨a, b⟩ := q
    simp only [natPairLexO] at h
    intro p hp
    rcases Nat.lt_trichotomy a b with hc | hc | hc
    · rw [if_pos hc] at h; cases h
    · rw [if_neg (by omega), if_neg (by omega)] at h
      rcases List.mem_cons.mp hp with hpq | hpq
      · rw [hpq]; exact hc
      · exact ih h p hpq
    · rw [if_neg (by omega), if_pos hc] at h; cases h

theorem fieldCmp_eq_fields (a b : DT) (h : fieldCmp a b = .eq) :
    a.year = b.year ∧ a.month = b.month ∧ a.day = b.day ∧ a.hour = b.hour ∧
      a.minute = b.minute ∧ a.second = b.second ∧ a.usec = b.usec := by
  have hlex : natPairLexO [(a.year, b.year), (a.month, b.month), (a.day, b.day),
      (a.hour, b.hour), (a.minute, b.minute), (a.second, b.second), (a.usec, b.usec)]
      = .eq := h
  have he := natPairLexO_eq _ hlex
  exact ⟨he (a.year, b.year) (by simp), he (a.month, b.month) (by simp),
    he (a.day, b.day) (by simp), he (a.hour, b.hour) (by simp),
    he (a.minute, b.minute) (by simp), he (a.second, b.second) (by simp),
    he (a.usec, b.usec) (by simp)⟩

/-- Claim C3 (amended): two timestamp strings that parse to the same instant
carrying the same UTC offset (such as the `Z` and `+00:00` spellings)
normalize to the same canonical key, so both map to one stored record with
last write winning; same-instant inputs at different offsets keep different
keys. -/
theorem claim_C3_amended (s1 s2 : String) (d1 d2 : DT)
    (hp1 : parse_datetime s1 = some d1) (hp2 : parse_datetime s2 = some d2)
    (hoff : d1.offset = d2.offset) (heq : pyCmp d1 d2 = some .eq)
    (v1 v2 : ℚ) (now : DT) :
    d1.isoformat = d2.isoformat ∧
    (async_add_metrics emptyWorld true now
      [⟨some (.str s1), some v1, none, none⟩,
       ⟨some (.str s2), some v2, none, none⟩]).world.durable
      = some ⟨[(d2.isoformat, ⟨d2.isoformat, some v2, none, none, now.isoformat⟩)],
          some now.isoformat⟩ := by
  have hfc : fieldCmp d1 d2 = .eq := by
    rcases ho : d1.offset with _ | o
    · have ho2 : d2.offset = none := by rw [← hoff, ho]
      simpa [pyCmp, ho, ho2] using heq
    · have ho2 : d2.offset = some o := by rw [← hoff, ho]
      simpa [pyCmp, ho, ho2] using heq
  have hdd : d1 = d2 := by
    obtain ⟨e1, e2, e3, e4, e5, e6, e7⟩ := fieldCmp_eq_fields d1 d2 hfc
    cases d1
    cases d2
    simp only [DT.mk.injEq]
    simp only at e1 e2 e3 e4 e5 e6 e7 hoff
    exact ⟨e1, e2, e3, e4, e5, e6, e7, hoff⟩
  subst hdd
  have hs1 : ¬ s1 = "" := fun h => by
    rw [h, show parse_datetime "" = (none : Option DT) from rfl] at hp1
    cases hp1
  have hs2 : ¬ s2 = "" := fun h => by
    rw [h, show parse_datetime "" = (none : Option DT) from rfl] at hp2
    cases hp2
  refine ⟨rfl, ?_⟩
  simp only [async_add_metrics, List.isEmpty_cons, List.foldl, stepMetric,
    if_neg hs1, if_neg hs2, hp1, hp2, stepCore, dictGet, List.find?, dictSet]
  by_cases hv : v1 = v2
  · subst hv
    simp
  · simp [hv]

/-- Witness for C3: the `Z` and `+00:00` spellings of one instant collide on
one key and the second write wins. -/
theorem claim_C3_witness :
    parse_datetime "2024-01-01T10:00:00Z" = some sampleDT1 ∧
    parse_datetime "2024-01-01T10:00:00+00:00" = some sampleDT1 ∧
    pyCmp sampleDT1 sampleDT1 = some .eq ∧
    (async_add_metrics emptyWorld true sampleNow1
      [⟨some (.str "2024-01-01T10:00:00Z"), some 1, none, none⟩,
       ⟨some (.str "2024-01-01T10:00:00+00:00"), some 2, none, none⟩]).world.durable
      = some ⟨[(sampleDT1.isoformat,
          ⟨sampleDT1.isoformat, some 2, none, none, sampleNow1.isoformat⟩)],
          some sampleNow1.isoformat⟩ := by
  have h := claim_C3_amended "2024-01-01T10:00:00Z" "2024-01-01T10:00:00+00:00"
    sampleDT1 sampleDT1 (by decide) (by decide) rfl (by decide) 1 2 sampleNow1
  exact ⟨by decide, by decide, by decide, h.2⟩

/-- Counterexample to C3 as stated: `2024-01-01T10:00:00Z` and
`2024-01-01T11:00:00+01:00` denote the same instant (Python `==` holds) yet
normalize to different keys, because `isoformat()` keeps the input offset. -/
theorem claim_C3_counterexample :
    parse_datetime "2024-01-01T10:00:00Z" = some ⟨2024,1,1,10,0,0,0,some 0⟩ ∧
    parse_datetime "2024-01-01T11:00:00+01:00" = some ⟨2024,1,1,11,0,0,0,some 60⟩ ∧
    pyCmp ⟨2024,1,1,10,0,0,0,some 0⟩ ⟨2024,1,1,11,0,0,0,some 60⟩ = some .eq ∧
    DT.isoformat ⟨2024,1,1,10,0,0,0,some 0⟩ ≠ DT.isoformat ⟨2024,1,1,11,0,0,0,some 60⟩ := by
  decide

/-- Claim C8: the per-item validation rules — missing timestamp, unparsable
timestamp, first non-coercible data field in source order, all data fields
null — and acceptance when every check passes. -/
theorem claim_C8 (m : RawApiMetric) :
    (m.timestamp = none →
      validate_metric (.obj m) = .error "Missing required field: timestamp") ∧
    (∀ s, m.timestamp = some (.str s) → parse_datetime s = none →
      validate_metric (.obj m) = .error "Invalid timestamp format") ∧
    (∀ d, tsParsed m = some d →
      ((m.meter_value = some .nonNum →
        validate_metric (.obj m) = .error "Field meter_value must be numeric") ∧
      (m.meter_value ≠ some .nonNum → m.average_value = some .nonNum →
        validate_metric (.obj m) = .error "Field average_value must be numeric") ∧
      (m.meter_value ≠ some .nonNum → m.average_value ≠ some .nonNum →
        m.temperature = some .nonNum →
        validate_metric (.obj m) = .error "Field temperature must be numeric") ∧
      (m.meter_value = none → m.average_value = none → m.temperature = none →
        validate_metric (.obj m) = .error
          "At least one data field (meter_value, average_value, temperature) must be provided") ∧
      (∀ mv av tv, coerceField m.meter_value = some mv →
        coerceField m.average_value = some av → coerceField m.temperature = some tv →
        ¬(mv = none ∧ av = none ∧ tv = none) →
        validate_metric (.obj m) = .ok ⟨d, mv, av, tv⟩))) := by
  have hval : ∀ d, tsParsed m = some d →
      validate_metric (.obj m) = validateNumericFields m d := by
    intro d hd
    simp only [tsParsed] at hd
    cases hts : m.timestamp with
    | none => rw [hts] at hd; cases hd
    | some t =>
      cases t with
      | str s =>
        rw [hts] at hd
        simp only at hd
        simp [validate_metric, hts, hd]
      | dt d2 =>
        rw [hts] at hd
        simp only [Option.some.injEq] at hd
        subst hd
        simp [validate_metric, hts]
      | other =>
        rw [hts] at hd
        cases hd
  refine ⟨?_, ?_, ?_⟩
  · intro h
    simp [validate_metric, h]
  · intro s hts hp
    simp [validate_metric, hts, hp]
  · intro d hd
    rw [hval d hd] at *
    refine ⟨?_, ?_, ?_, ?_, ?_⟩
    · intro h
      rw [hval d hd]
      simp [validateNumericFields, h, coerceField]
    · intro h1 h2
      rw [hval d hd]
      cases hm : m.meter_value with
      | none => simp [validateNumericFields, hm, h2, coerceField]
      | some fv =>
        cases fv with
        | num q => simp [validateNumericFields, hm, h2, coerceField]
        | nonNum => exact absurd hm h1
    · intro h1 h2 h3
      rw [hval d hd]
      cases hm : m.meter_value with
      | none =>
        cases ha : m.average_value with
        | none => simp [validateNumericFields, hm, ha, h3, coerceField]
        | some fv =>
          cases fv with
          | num q => simp [validateNumericFields, hm, ha, h3, coerceField]
          | nonNum => exact absurd ha h2
      | some fv =>
        cases fv with
        | num q =>
          cases ha : m.average_value with
          | none => simp [validateNumericFields, hm, ha, h3, coerceField]
          | some fv2 =>
            cases fv2 with
            | num q2 => simp [validateNumericFields, hm, ha, h3, coerceField]
            | nonNum => exact absurd ha h2
        | nonNum => exact absurd hm h1
    · intro h1 h2 h3
      rw [hval d hd]
      simp [validateNumericFields, h1, h2, h3, coerceField]
    · intro mv av tv hmv hav htv hne
      rw [hval d hd]
      simp only [validateNumericFields]
      cases hm : m.meter_value with
      | none =>
        rw [hm] at hmv
        simp only [coerceField] at hmv
        cases hmv
        cases ha : m.average_value with
        | none =>
          rw [ha] at hav
          simp only [coerceField] at hav
          cases hav
          cases ht : m.temperature with
          | none =>
            rw [ht] at htv
            simp only [coerceField] at htv
            cases htv
            exact absurd ⟨rfl, rfl, rfl⟩ hne
          | some fv =>
            cases fv with
            | num q =>
              rw [ht] at htv
              simp only [coerceField, Option.some.injEq] at htv
              subst htv
              simp [coerceField]
            | nonNum =>
              rw [ht] at htv
              simp [coerceField] at htv
        | some fv =>
          cases fv with
          | num q =>
            rw [ha] at hav
            simp only [coerceField, Option.some.injEq] at hav
            subst hav
            cases ht : m.temperature with
            | none =>
              rw [ht] at htv
              simp only [coerceField] at htv
              cases htv
              simp [coerceField]
            | some fv2 =>
              cases fv2 with
              | num q2 =>
                rw [ht] at htv
                simp only [coerceField, Option.some.injEq] at htv
                subst htv
                simp [coerceField]
              | nonNum =>
                rw [ht] at htv
                simp [coerceField] at htv
          | nonNum =>
            rw [ha] at hav
            simp [coerceField] at hav
      | some fv =>
        cases fv with
        | num q =>
          rw [hm] at hmv
          simp only [coerceField, Option.some.injEq] at hmv
          subst hmv
          cases ha : m.average_value with
          | none =>
            rw [ha] at hav
            simp only [coerceField] at hav
            cases hav
            cases ht : m.temperature with
            | none =>
              rw [ht] at htv
              simp only [coerceField] at htv
              cases htv
              simp [coerceField]
            | some fv2 =>
              cases fv2 with
              | num q2 =>
                rw [ht] at htv
                simp only [coerceField, Option.some.injEq] at htv
                subst htv
                simp [coerceField]
              | nonNum =>
                rw [ht] at htv
                simp [coerceField] at htv
          | some fv2 =>
            cases fv2 with
            | num q2 =>
              rw [ha] at hav
              simp only [coerceField, Option.some.injEq] at hav
              subst hav
              cases ht : m.temperature with
              | none =>
                rw [ht] at htv
                simp only [coerceField] at htv
                cases htv
                simp [coerceField]
              | some fv3 =>
                cases fv3 with
                | num q3 =>
                  rw [ht] at htv
                  simp only [coerceField, Option.some.injEq] at htv
                  subst htv
                  simp [coerceField]
                | nonNum =>
                  rw [ht] at htv
                  simp [coerceField] at htv
            | nonNum =>
              rw [ha] at hav
              simp [coerceField] at hav
        | nonNum =>
          rw [hm] at hmv
          simp [coerceField] at hmv

/-- Witness for C8 at concrete items exercising each rule. -/
theorem claim_C8_witness :
    validate_metric (.obj ⟨none, some (.num 1), none, none⟩)
      = .error "Missing required field: timestamp" ∧
    validate_metric (.obj ⟨some (.str "bogus"), some (.num 1), none, none⟩)
      = .error "Invalid timestamp format" ∧
    validate_metric (.obj ⟨some (.dt sampleDT1), some .nonNum, none, none⟩)
      = .error "Field meter_value must be numeric" ∧
    validate_metric (.obj ⟨some (.dt sampleDT1), none, none, none⟩)
      = .error "At least one data field (meter_value, average_value, temperature) must be provided" ∧
    validate_metric (.obj ⟨some (.dt sampleDT1), some (.num 100), none, none⟩)
      = .ok ⟨sampleDT1, some 100, none, none⟩ := by
  refine ⟨(claim_C8 ⟨none, some (.num 1), none, none⟩).1 rfl,
    (claim_C8 ⟨some (.str "bogus"), some (.num 1), none, none⟩).2.1 "bogus" rfl (by decide),
    ((claim_C8 ⟨some (.dt sampleDT1), some .nonNum, none, none⟩).2.2 sampleDT1 rfl).1 rfl,
    ((claim_C8 ⟨some (.dt sampleDT1), none, none, none⟩).2.2 sampleDT1 rfl).2.2.2.1 rfl rfl rfl,
    ((claim_C8 ⟨some (.dt sampleDT1), some (.num 100), none, none⟩).2.2 sampleDT1
      rfl).2.2.2.2 (some 100) none none rfl rfl rfl (by simp)⟩

theorem energyStatOf_start (m : CoordMetric) (p : EnergyStat)
    (h : energyStatOf m = some p) :
    p.start.minute = 0 ∧ p.start.second = 0 ∧ p.start.usec = 0 := by
  simp only [energyStatOf] at h
  cases hts : m.timestamp with
  | none => rw [hts] at h; cases h
  | some t =>
    cases t with
    | str s =>
      rw [hts] at h
      simp only at h
      cases hp : parse_datetime s with
      | none => rw [hp] at h; cases h
      | some d =>
        rw [hp] at h
        cases hm : m.meter_value with
        | none => rw [hm] at h; cases h
        | some q =>
          rw [hm] at h
          simp only [Option.map_some', Option.some.injEq] at h
          subst h
          exact ⟨rfl, rfl, rfl⟩
    | dt d =>
      rw [hts] at h
      simp only at h
      cases hm : m.meter_value with
      | none => rw [hm] at h; cases h
      | some q =>
        rw [hm] at h
        simp only [Option.map_some', Option.some.injEq] at h
        subst h
        exact ⟨rfl, rfl, rfl⟩
    | other => rw [hts] at h; cases h

theorem tempStatOf_start (m : CoordMetric) (p : TempStat)
    (h : tempStatOf m = some p) :
    p.start.minute = 0 ∧ p.start.second = 0 ∧ p.start.usec = 0 := by
  simp only [tempStatOf] at h
  cases hts : m.timestamp with
  | none => rw [hts] at h; cases h
  | some t =>
    cases t with
    | str s =>
      rw [hts] at h
      simp only at h
      cases hp : parse_datetime s with
      | none => rw [hp] at h; cases h
      | some d =>
        rw [hp] at h
        cases hm : m.temperature with
        | none => rw [hm] at h; cases h
        | some q =>
          rw [hm] at h
          simp only [Option.map_some', Option.some.injEq] at h
          subst h
          exact ⟨rfl, rfl, rfl⟩
    | dt d =>
      rw [hts] at h
      simp only at h
      cases hm : m.temperature with
      | none => rw [hm] at h; cases h
      | some q =>
        rw [hm] at h
        simp only [Option.map_some', Option.some.injEq] at h
        subst h
        exact ⟨rfl, rfl, rfl⟩
    | other => rw [hts] at h; cases h

theorem importStats_perm (items : List CoordMetric) (es : List EnergyStat)
    (ts : List TempStat) (h : importStats items = some (es, ts)) :
    es.Perm (items.filterMap energyStatOf) ∧ ts.Perm (items.filterMap tempStatOf) := by
  simp only [importStats] at h
  split at h
  · have hno := statsLoop_some_no_other _ _ h
    rw [statsLoop_eq _ hno] at h
    simp only [Option.some.injEq, Prod.mk.injEq] at h
    obtain ⟨he, ht⟩ := h
    have hperm : ((List.insertionSort keyedLe (items.map fun m => (sortKeyOf m, m))).map
        fun p => p.2).Perm items := by
      have h1 : (List.insertionSort keyedLe (items.map fun m => (sortKeyOf m, m))).Perm
          (items.map fun m => (sortKeyOf m, m)) :=
        List.perm_insertionSort _ _
      have h2 := h1.map fun p => p.2
      have h3 : ((items.map fun m => (sortKeyOf m, m)).map fun p => p.2) = items := by
        rw [List.map_map,
          show ((fun p : SortKey × CoordMetric => p.2) ∘ fun m => (sortKeyOf m, m)) = id from rfl,
          List.map_id]
      rwa [h3] at h2
    constructor
    · rw [← he]
      exact hperm.filterMap energyStatOf
    · rw [← ht]
      exact hperm.filterMap tempStatOf
  · cases h

/-- Claim C7 (amended): the export step runs at most once per ingest (a single
optional export event in the model), exactly when the merge marked at least
one record new or changed and the save succeeded; the points handed to it are
derived from every item of the submitted batch whose timestamp parses —
including unchanged or duplicate items, not only the accepted ones — with each
start truncated to the top of the hour. -/
theorem claim_C7_amended (w : World) (saveOk : Bool) (now : DT)
    (items : List CoordMetric) :
    ((async_add_metrics w saveOk now items).exported ≠ none →
      (async_add_metrics w saveOk now items).exportAttempted = true) ∧
    ((async_add_metrics w saveOk now items).exportAttempted = true ↔
      saveOk = true ∧ (async_add_metrics w saveOk now items).marks.any goodMark = true) ∧
    (∀ es ts, (async_add_metrics w saveOk now items).exported = some (es, ts) →
      es.Perm (items.filterMap energyStatOf) ∧ ts.Perm (items.filterMap tempStatOf) ∧
      (∀ p ∈ es, p.start.minute = 0 ∧ p.start.second = 0 ∧ p.start.usec = 0) ∧
      (∀ p ∈ ts, p.start.minute = 0 ∧ p.start.second = 0 ∧ p.start.usec = 0)) := by
  have hinv := foldl_updated_invariant now items
    ⟨(w.durable.getD emptyDataset).metrics, false, 0, 0, [], 0⟩ rfl
  refine ⟨?_, ?_, ?_⟩
  · intro h
    cases he : items.isEmpty with
    | true =>
      exfalso
      apply h
      simp [async_add_metrics, he]
    | false =>
      simp only [async_add_metrics, he, Bool.false_eq_true, if_false] at h ⊢
      by_cases hupd : (List.foldl (stepMetric now)
          ⟨(w.durable.getD emptyDataset).metrics, false, 0, 0, [], 0⟩ items).updated = true
      · rw [if_pos hupd] at h ⊢
        cases saveOk with
        | true => rfl
        | false => exact absurd rfl h
      · rw [if_neg hupd] at h ⊢
        exact absurd rfl h
  · cases he : items.isEmpty with
    | true => simp [async_add_metrics, he]
    | false =>
      simp only [async_add_metrics, he, Bool.false_eq_true, if_false]
      by_cases hupd : (List.foldl (stepMetric now)
          ⟨(w.durable.getD emptyDataset).metrics, false, 0, 0, [], 0⟩ items).updated = true
      · rw [if_pos hupd]
        have hany : (List.foldl (stepMetric now)
            ⟨(w.durable.getD emptyDataset).metrics, false, 0, 0, [], 0⟩ items).marks.any
              goodMark = true := by
          rw [← hinv]
          exact hupd
        cases saveOk with
        | true => simp [hany]
        | false => simp
      · rw [if_neg hupd]
        have hany : (List.foldl (stepMetric now)
            ⟨(w.durable.getD emptyDataset).metrics, false, 0, 0, [], 0⟩ items).marks.any
              goodMark = false := by
          rw [← hinv]
          exact Bool.eq_false_iff.mpr hupd
        simp [hany]
  · intro es ts h
    cases he : items.isEmpty with
    | true => simp [async_add_metrics, he] at h
    | false =>
      simp only [async_add_metrics, he, Bool.false_eq_true, if_false] at h
      by_cases hupd : (List.foldl (stepMetric now)
          ⟨(w.durable.getD emptyDataset).metrics, false, 0, 0, [], 0⟩ items).updated = true
      · rw [if_pos hupd] at h
        cases saveOk with
        | true =>
          obtain ⟨hperm1, hperm2⟩ := importStats_perm items es ts h
          refine ⟨hperm1, hperm2, ?_, ?_⟩
          · intro p hp
            have hp2 : p ∈ items.filterMap energyStatOf := hperm1.mem_iff.mp hp
            obtain ⟨m, -, hm⟩ := List.mem_filterMap.mp hp2
            exact energyStatOf_start m p hm
          · intro p hp
            have hp2 : p ∈ items.filterMap tempStatOf := hperm2.mem_iff.mp hp
            obtain ⟨m, -, hm⟩ := List.mem_filterMap.mp hp2
            exact tempStatOf_start m p hm
        | false =>
          have h2 : (none : Option (List EnergyStat × List TempStat)) = some (es, ts) := h
          cases h2
      · rw [if_neg hupd] at h
        have h2 : (none : Option (List EnergyStat × List TempStat)) = some (es, ts) := h
        cases h2

/-- Witness for C7: a batch of two distinct new records exports exactly its
two derived points. -/
theorem claim_C7_witness :
    (async_add_metrics emptyWorld true sampleNow1 [sampleMeterA, sampleMeterB]).exportAttempted
      = true ∧
    (∃ es ts,
      (async_add_metrics emptyWorld true sampleNow1 [sampleMeterA, sampleMeterB]).exported
        = some (es, ts) ∧
      es.Perm ([sampleMeterA, sampleMeterB].filterMap energyStatOf) ∧
      (∀ p ∈ es, p.start.minute = 0 ∧ p.start.second = 0 ∧ p.start.usec = 0)) := by
  have h := claim_C7_amended emptyWorld true sampleNow1 [sampleMeterA, sampleMeterB]
  refine ⟨h.2.1.mpr ⟨rfl, by decide⟩, ?_⟩
  have hexp : (async_add_metrics emptyWorld true sampleNow1
      [sampleMeterA, sampleMeterB]).exported
      = some ([⟨truncHour sampleDT1, 100, 100⟩, ⟨truncHour sampleDT2, 101, 101⟩], []) := by
    decide
  obtain ⟨h1, -, h3, -⟩ := h.2.2 _ _ hexp
  exact ⟨_, _, hexp, h1, h3⟩

/-- Counterexample to C7 as stated: a batch repeating one record exports three
energy points even though only two records were accepted (new); the extra
point is derived from the unchanged duplicate occurrence. -/
theorem claim_C7_counterexample :
    (async_add_metrics emptyWorld true sampleNow1
      [sampleMeterA, sampleMeterA, sampleMeterB]).marks
      = [.isNew, .isUnchanged, .isNew] ∧
    (async_add_metrics emptyWorld true sampleNow1
      [sampleMeterA, sampleMeterA, sampleMeterB]).marks.countP goodMark = 2 ∧
    ((async_add_metrics emptyWorld true sampleNow1
      [sampleMeterA, sampleMeterA, sampleMeterB]).exported.map fun p => p.1.length)
      = some 3 := by
  decide
